import Mathlib

/-!
Verification development for the ai-proxy core library.

Each definition in this file is a shallow embedding of a function or data
type of the Rust sources (paths cited in the doc comments).  Rust machine
integers are modelled as `Nat`/`Int` (the values involved are token counts,
HTTP statuses and millisecond timestamps, far from any overflow boundary),
`f32` request parameters are modelled as exact rationals (`ℚ`), strings as
Lean `String`/`List Char`, and fallible functions return `Option`/`Except`.
-/

/-! ## Error taxonomy — src/aiproxy-core/src/error.rs (AiProxyError) -/

/-- `AiProxyError` from error.rs.  `io` and `other` carry payloads that never
matter for the claims; they are modelled by a message string. -/
inductive AiProxyError where
  | validation (msg : String)
  | rateLimited (provider : String) (retryAfter : Option Nat)
  | budgetExceeded (remaining : Nat)
  | providerUnavailable (provider : String)
  | providerError (provider : String) (code : String) (message : String)
  | ioError (msg : String)
  | other (msg : String)
deriving DecidableEq, Repr

/-! ## Canonical model — src/aiproxy-core/src/model.rs -/

/-- `Role` from model.rs (serde rename_all = "lowercase"). -/
inductive Role where
  | system
  | user
  | assistant
  | tool
deriving DecidableEq, Repr

/-- `StopReason` from model.rs (serde rename_all = "snake_case"). -/
inductive StopReason where
  | stop
  | length
  | toolUse
  | endTurn
  | contentFilter
  | other
deriving DecidableEq, Repr

/-- JSON values, modelling `serde_json::Value`.  Objects keep their field
list in emission order (serialization order of the Rust structs). -/
inductive Json where
  | null
  | bool (b : Bool)
  | num (q : ℚ)
  | str (s : String)
  | arr (elems : List Json)
  | obj (fields : List (String × Json))
deriving Repr

/-- `ChatMessage` from model.rs. -/
structure ChatMessage where
  role : Role
  content : String
deriving DecidableEq, Repr

/-- `ChatRequest` from model.rs.  `temperature`/`top_p` (`f32`) are modelled
as exact rationals; `metadata` (`serde_json::Value`) as `Json`. -/
structure ChatRequest where
  model : String
  messages : List ChatMessage
  temperature : Option ℚ
  top_p : Option ℚ
  metadata : Option Json
  client_key : Option String
  request_id : Option String
  trace_id : Option String
  idempotency_key : Option String
  max_output_tokens : Option Nat
  stop_sequences : Option (List String)
deriving Repr

/-- `ChatResponse` from model.rs. -/
structure ChatResponse where
  model : String
  text : String
  usage_prompt : Nat
  usage_completion : Nat
  cached : Bool
  provider : String
  transcript_id : Option String
  turn_id : String
  stop_reason : Option StopReason
  provider_request_id : Option String
  created_at_ms : Int
  latency_ms : Nat
deriving DecidableEq, Repr

/-- `EmbedRequest` from model.rs. -/
structure EmbedRequest where
  model : String
  inputs : List String
  client_key : Option String
deriving DecidableEq, Repr

/-- `EmbedResponse` from model.rs (`f32` vector entries modelled as `ℚ`). -/
structure EmbedResponse where
  model : String
  vectors : List (List ℚ)
  usage : Nat
  cached : Bool
  provider : String
deriving DecidableEq, Repr

/-! ## HTTP transport — src/aiproxy-core/src/http_client.rs -/

/-- `RequestCtx` from http_client.rs lines 21-26 (`Default` = all `None`). -/
structure RequestCtx where
  request_id : Option String
  turn_id : Option String
  idempotency_key : Option String
deriving DecidableEq, Repr

/-- `RequestCtx::default()`. -/
def RequestCtx.default : RequestCtx := ⟨none, none, none⟩

/-- `apply_ctx_headers` (http_client.rs lines 5-10): appends the three
contextual headers, each only when present, in source order. -/
def apply_ctx_headers (ctx : RequestCtx) (hdrs : List (String × String)) :
    List (String × String) :=
  let h1 := match ctx.request_id with
    | some rid => hdrs ++ [("X-Request-Id", rid)]
    | none => hdrs
  let h2 := match ctx.turn_id with
    | some tid => h1 ++ [("X-Turn-Id", tid)]
    | none => h1
  match ctx.idempotency_key with
  | some ik => h2 ++ [("Idempotency-Key", ik)]
  | none => h2

/-- `MAX_SSE_BUFFER` (http_client.rs line 2). -/
def MAX_SSE_BUFFER : Nat := 2 * 1024 * 1024

/-- `truncate` (http_client.rs lines 405-413).  The Rust function measures
and slices bytes; every claim in scope exercises it on ASCII bodies, where
byte and character counts coincide, so it is embedded at character level. -/
def truncate (s : String) (max : Nat) : String :=
  if s.length > max then (s.take max) ++ "..." else s

/-- Unicode `White_Space` code points — the set accepted by Rust's
`char::is_whitespace`, used by `str::trim` / `trim_start`. -/
def rust_is_whitespace (c : Char) : Bool :=
  (0x9 ≤ c.toNat && c.toNat ≤ 0xD) || c.toNat = 0x20 || c.toNat = 0x85 ||
  c.toNat = 0xA0 || c.toNat = 0x1680 ||
  (0x2000 ≤ c.toNat && c.toNat ≤ 0x200A) ||
  c.toNat = 0x2028 || c.toNat = 0x2029 || c.toNat = 0x202F ||
  c.toNat = 0x205F || c.toNat = 0x3000

/-- Rust `str::trim` on a character list: drop whitespace from both ends. -/
def rustTrimL (l : List Char) : List Char :=
  ((l.dropWhile rust_is_whitespace).reverse.dropWhile rust_is_whitespace).reverse

/-- Rust `str::trim` on strings. -/
def rustTrim (s : String) : String := String.mk (rustTrimL s.data)

/-- Rust `str::trim_start` on strings. -/
def rustTrimStart (s : String) : String :=
  String.mk (s.data.dropWhile rust_is_whitespace)

/-- Rust `str::starts_with` on string literals (character-list prefix test;
UTF-8 byte prefixes coincide with character prefixes). -/
def startsWith (p s : String) : Bool := p.data.isPrefixOf s.data

/-- Digit test for `u64::from_str` and the JSON grammar. -/
def isAsciiDigit (c : Char) : Bool := 48 ≤ c.toNat && c.toNat ≤ 57

/-- Digit-list value (most significant first; `'0'` has code point 48). -/
def digitsToNat (l : List Char) : Nat :=
  l.foldl (fun acc d => 10 * acc + (d.toNat - 48)) 0

/-- Rust `<u64 as FromStr>::from_str`: an optional leading `+`, then one or
more ASCII digits, value at most `u64::MAX`; anything else is an error. -/
def parseU64 (s : String) : Option Nat :=
  let ds := match s.data with
    | '+' :: rest => rest
    | rest => rest
  if ds ≠ [] && ds.all isAsciiDigit && digitsToNat ds < 2 ^ 64 then
    some (digitsToNat ds)
  else none

/-- `parse_retry_after` (http_client.rs lines 376-386): the `retry-after`
header value, trimmed and parsed as `u64` seconds; non-numeric values
(e.g. HTTP-dates) and a missing header give `none`. -/
def parse_retry_after (header : Option String) : Option Nat :=
  match header with
  | some v =>
      match parseU64 (rustTrim v) with
      | some secs => some secs
      | none => none
  | none => none

/-- `map_http_error` (http_client.rs lines 388-403).  `status.is_server_error()`
is `500 ≤ s ≤ 599`; `StatusCode::TOO_MANY_REQUESTS` is 429. -/
def map_http_error (provider : String) (status : Nat) (retryAfter : Option Nat)
    (body : String) : AiProxyError :=
  if status = 429 then .rateLimited provider retryAfter
  else if 500 ≤ status && status ≤ 599 then .providerUnavailable provider
  else .providerError provider (toString status) (truncate body 300)

/-- What one HTTP send can come back with: a connect/transport failure, or a
response carrying status, the raw `Retry-After` header (if any), the body
text, and whether the body decodes as the expected JSON type (`decodeErr =
none`) or fails with serde error text `e` (`decodeErr = some e`). -/
inductive HttpOutcome where
  | transportError
  | response (status : Nat) (retryAfter : Option String) (body : String)
      (decodeErr : Option String)
deriving DecidableEq, Repr

/-- `HttpClient::post_json` (http_client.rs lines 59-162), as a function of
the upstream outcome.  `resp.status().is_success()` is `200 ≤ s ≤ 299`.
Telemetry/span recording is side-effect only and is not modelled. -/
def post_json (outcome : HttpOutcome) : Except AiProxyError Unit :=
  match outcome with
  | .transportError => .error (.providerUnavailable "http")
  | .response status retryAfter body decodeErr =>
      if 200 ≤ status && status ≤ 299 then
        match decodeErr with
        | none => .ok ()
        | some e =>
            .error (.providerError "http" (toString status)
              ("json decode error: " ++ e))
      else
        .error (map_http_error "http" status
          (parse_retry_after retryAfter) body)

/-- `post_json` viewed at attempt granularity: given the sequence of
outcomes successive sends would observe, the function body issues exactly
one `req.send()` (http_client.rs lines 94-99) — there is no retry loop in
the source — so only the first outcome is consulted and the attempt count
is 1, whatever the request context holds. -/
def post_json_attempts (_ctx : RequestCtx) (first : HttpOutcome)
    (_later : List HttpOutcome) : Except AiProxyError Unit × Nat :=
  (post_json first, 1)

/-- The headers applied by `post_json` (http_client.rs lines 83-92):
`User-Agent`, then caller headers, then `apply_ctx_headers`. -/
def post_json_headers (ctx : RequestCtx) (custom : List (String × String)) :
    List (String × String) :=
  apply_ctx_headers ctx (("User-Agent", "ai-proxy/0.1") :: custom)

/-- A retryable outcome in the sense of the retry-policy claim:
status 429, 502, 503, 504, or a transport error. -/
def retryableOutcome (o : HttpOutcome) : Bool :=
  match o with
  | .transportError => true
  | .response status _ _ _ =>
      status = 429 || status = 502 || status = 503 || status = 504

/-! ## SSE line framing — http_client.rs `LineStream` (lines 415-492) -/

/-- UTF-8 byte length of a character list (Rust `String::len`). -/
def utf8Len (l : List Char) : Nat := (l.map (fun c => c.utf8Size)).sum

/-- Trailing-`\r` trim applied when a line is cut at a `\n`
(http_client.rs lines 449-456): the drained line always ends in `\n`;
`..."\r\n"` drops two characters, otherwise one.  Applied to the part
before the `\n`, that is: drop one trailing `\r` if present. -/
def trim_cr (l : List Char) : List Char :=
  if l.getLast? = some '\r' then l.dropLast else l

/-- The error yielded when the buffer guard trips (http_client.rs 466-470). -/
def sseOverflowError : AiProxyError :=
  .providerError "http" "sse_buffer_overflow" "SSE buffer exceeded 2MiB without a newline"

/-- The line-draining phase of `LineStream::poll_next` (http_client.rs
lines 446-458): while the buffer contains a `\n`, cut at the first one and
yield the line with its trailing `\r\n`/`\n` trimmed; return the drained
lines and the leftover buffer (which contains no `\n`). -/
def drainLines (buf : List Char) : List (List Char) × List Char :=
  match hnl : buf.dropWhile (fun c => c ≠ '\n') with
  | _ :: rest =>
      let p := drainLines rest
      (trim_cr (buf.takeWhile (fun c => c ≠ '\n')) :: p.1, p.2)
  | [] => ([], buf)
termination_by buf.length
decreasing_by
  have h1 : (buf.dropWhile (fun c => c ≠ '\n')).length ≤ buf.length :=
    (List.dropWhile_sublist (l := buf) (p := fun c => c ≠ '\n')).length_le
  rw [hnl] at h1
  simpa using Nat.lt_of_lt_of_le (Nat.lt_succ_self _) h1

/-- `LineStream::poll_next` (http_client.rs lines 441-491) driven to
completion over a finite chunk sequence.  Each iteration of the source loop
either cuts the buffer at its first `\n` and yields the line, or pulls the
next chunk; since every complete line in the buffer is yielded before the
next poll of the inner stream, the loop factors into the draining phase
(`drainLines`) followed by the pull: an `Ok` chunk is appended
(`from_utf8_lossy`; chunks are modelled as character lists) and the 2 MiB
byte guard is checked, an `Err` chunk yields `ProviderUnavailable`, and
end-of-stream flushes a non-empty buffer once as a final untrimmed line.
An error item ends the run, matching the single-consumer use
(`drive_openai_sse` stops at the first error). -/
def lineGo (chunks : List (Except Unit (List Char))) (buf : List Char)
    (flushed : Bool) : List (Except AiProxyError (List Char)) :=
  ((drainLines buf).1.map .ok) ++
    match chunks with
    | [] =>
        if flushed = false && (drainLines buf).2 ≠ [] then [.ok (drainLines buf).2]
        else []
    | .error _ :: _ => [.error (.providerUnavailable "http")]
    | .ok c :: tl =>
        if MAX_SSE_BUFFER < utf8Len ((drainLines buf).2 ++ c) then
          [.error sseOverflowError]
        else lineGo tl ((drainLines buf).2 ++ c) flushed

/-- The full emission sequence of one `LineStream` (fresh state). -/
def lineStream (chunks : List (Except Unit (List Char))) :
    List (Except AiProxyError (List Char)) :=
  lineGo chunks [] false

/-- Reference framing of a character sequence into SSE lines: split on
`\n`, trim a single `\r` before each `\n`, and flush a non-empty tail
(untrimmed) as a final line. -/
def sse_frame (s : List Char) : List (List Char) :=
  match hnl : s.dropWhile (fun c => c ≠ '\n') with
  | _ :: rest => trim_cr (s.takeWhile (fun c => c ≠ '\n')) :: sse_frame rest
  | [] => if s = [] then [] else [s]
termination_by s.length
decreasing_by
  have h1 : (s.dropWhile (fun c => c ≠ '\n')).length ≤ s.length :=
    (List.dropWhile_sublist (l := s) (p := fun c => c ≠ '\n')).length_le
  rw [hnl] at h1
  simpa using Nat.lt_of_lt_of_le (Nat.lt_succ_self _) h1

/-- Concatenation of the `Ok` chunk payloads. -/
def chunkConcat (chunks : List (Except Unit (List Char))) : List Char :=
  (chunks.map (fun c => match c with | .ok l => l | .error _ => [])).flatten

/-! ## JSON text parsing — model of `serde_json::from_str`

The stream bridge parses each SSE `data:` payload with
`serde_json::from_str::<OAChatStreamChunk>`.  The grammar below follows the
JSON specification as serde_json implements it (objects, arrays, strings
with the standard escapes, numbers, `true`/`false`/`null`); `\u` escapes are
decoded as single code points (surrogate pairing is not modelled — no input
in this development uses it). -/

/-- `{` and `}` as characters. -/
def lbraceC : Char := Char.ofNat 123

/-- Closing brace character. -/
def rbraceC : Char := Char.ofNat 125

/-- JSON insignificant whitespace (space, tab, line feed, carriage return). -/
def jsonIsWs (c : Char) : Bool := c = ' ' || c = '\t' || c = '\n' || c = '\r'

/-- Skip JSON whitespace. -/
def jsonSkipWs (l : List Char) : List Char := l.dropWhile jsonIsWs

/-- Hexadecimal digit value, by code point: `0`-`9` are 48-57, `a`-`f` are
97-102, `A`-`F` are 65-70. -/
def hexVal (c : Char) : Option Nat :=
  let n := c.toNat
  if 48 ≤ n && n ≤ 57 then some (n - 48)
  else if 97 ≤ n && n ≤ 102 then some (n - 87)
  else if 65 ≤ n && n ≤ 70 then some (n - 55)
  else none

/-- JSON string body after the opening quote: characters up to the closing
quote, decoding escapes. -/
def jsonStringBody : List Char → Option (List Char × List Char)
  | [] => none
  | c :: rest =>
      if c = '"' then some ([], rest)
      else if c = '\\' then
        match rest with
        | [] => none
        | e :: rest2 =>
            if e = 'u' then
              match rest2 with
              | h1 :: h2 :: h3 :: h4 :: rest3 => do
                  let v1 ← hexVal h1
                  let v2 ← hexVal h2
                  let v3 ← hexVal h3
                  let v4 ← hexVal h4
                  let code := ((v1 * 16 + v2) * 16 + v3) * 16 + v4
                  let (body, after) ← jsonStringBody rest3
                  some (Char.ofNat code :: body, after)
              | _ => none
            else do
              let d ← if e = '"' then some '"'
                else if e = '\\' then some '\\'
                else if e = '/' then some '/'
                else if e = 'b' then some (Char.ofNat 8)
                else if e = 'f' then some (Char.ofNat 12)
                else if e = 'n' then some '\n'
                else if e = 'r' then some '\r'
                else if e = 't' then some '\t'
                else none
              let (body, after) ← jsonStringBody rest2
              some (d :: body, after)
      else do
        let (body, after) ← jsonStringBody rest
        some (c :: body, after)
termination_by structural l => l

/-- One or more ASCII digits. -/
def jsonDigits (l : List Char) : Option (List Char × List Char) :=
  let ds := l.takeWhile isAsciiDigit
  if ds = [] then none else some (ds, l.drop ds.length)

/-- JSON number into an exact rational. -/
def jsonNumber (l : List Char) : Option (ℚ × List Char) := do
  let (neg, l1) := match l with
    | '-' :: rest => (true, rest)
    | _ => (false, l)
  let (intDs, l2) ← jsonDigits l1
  let (fracDs, l3) ← match l2 with
    | '.' :: rest => (jsonDigits rest).map (fun p => (p.1, p.2))
    | _ => some (([] : List Char), l2)
  let (expNeg, expDs, l4) ← match l3 with
    | 'e' :: rest | 'E' :: rest =>
        (match rest with
          | '-' :: rest2 => (jsonDigits rest2).map (fun p => (true, p.1, p.2))
          | '+' :: rest2 => (jsonDigits rest2).map (fun p => (false, p.1, p.2))
          | _ => (jsonDigits rest).map (fun p => (false, p.1, p.2)))
    | _ => some (false, ([] : List Char), l3)
  let mantissa : ℚ := (digitsToNat (intDs ++ fracDs) : ℚ) / (10 : ℚ) ^ fracDs.length
  let expo : ℤ := if expNeg then -(digitsToNat expDs : ℤ) else (digitsToNat expDs : ℤ)
  let v := mantissa * (10 : ℚ) ^ expo
  some (if neg then -v else v, l4)

/-- Literal keyword match. -/
def expectChars (kw : List Char) (l : List Char) : Option (List Char) :=
  if kw.isPrefixOf l then some (l.drop kw.length) else none

mutual

/-- JSON value (fuel-indexed recursive-descent; the fuel strictly decreases
on every call and `input length + 1` is always sufficient because every
recursive call consumes at least one input character first). -/
def jsonValue : Nat → List Char → Option (Json × List Char)
  | 0, _ => none
  | fuel + 1, l =>
      match jsonSkipWs l with
      | [] => none
      | c :: rest =>
          if c = '"' then
            (jsonStringBody rest).map (fun p => (Json.str (String.mk p.1), p.2))
          else if c = lbraceC then jsonFields fuel rest true []
          else if c = '[' then jsonElems fuel rest true []
          else if c = 't' then (expectChars ['r', 'u', 'e'] rest).map (fun r => (Json.bool true, r))
          else if c = 'f' then (expectChars ['a', 'l', 's', 'e'] rest).map (fun r => (Json.bool false, r))
          else if c = 'n' then (expectChars ['u', 'l', 'l'] rest).map (fun r => (Json.null, r))
          else (jsonNumber (c :: rest)).map (fun p => (Json.num p.1, p.2))
termination_by structural fuel => fuel

/-- Array elements after `[` (`first` marks position before the first
element, where `]` may close an empty array). -/
def jsonElems : Nat → List Char → Bool → List Json →
    Option (Json × List Char)
  | 0, _, _, _ => none
  | fuel + 1, l, first, acc =>
      match jsonSkipWs l with
      | [] => none
      | c :: rest =>
          if c = ']' && first then some (Json.arr acc.reverse, rest)
          else do
            let (v, l2) ← jsonValue fuel (c :: rest)
            match jsonSkipWs l2 with
            | ']' :: rest2 => some (Json.arr (v :: acc).reverse, rest2)
            | ',' :: rest2 => jsonElems fuel rest2 false (v :: acc)
            | _ => none
termination_by structural fuel _ _ _ => fuel

/-- Object members after the opening brace. -/
def jsonFields : Nat → List Char → Bool → List (String × Json) →
    Option (Json × List Char)
  | 0, _, _, _ => none
  | fuel + 1, l, first, acc =>
      match jsonSkipWs l with
      | [] => none
      | c :: rest =>
          if c = rbraceC && first then some (Json.obj acc.reverse, rest)
          else if c = '"' then do
            let (key, l2) ← jsonStringBody rest
            match jsonSkipWs l2 with
            | ':' :: l3 => do
                let (v, l4) ← jsonValue fuel l3
                let entry := (String.mk key, v)
                match jsonSkipWs l4 with
                | c2 :: rest2 =>
                    if c2 = rbraceC then some (Json.obj (entry :: acc).reverse, rest2)
                    else if c2 = ',' then jsonFields fuel rest2 false (entry :: acc)
                    else none
                | [] => none
            | _ => none
          else none
termination_by structural fuel _ _ _ => fuel

end

/-- `serde_json::from_str` into a `Json` value: a single value with only
whitespace around it. -/
def serde_from_str (s : String) : Option Json :=
  match jsonValue (s.length + 1) s.data with
  | some (v, rest) => if jsonSkipWs rest = [] then some v else none
  | none => none

/-- First value of a JSON-object field (serde reads each field once). -/
def jsonField (fields : List (String × Json)) (name : String) : Option Json :=
  (fields.find? (fun f => f.1 = name)).map (fun f => f.2)

/-! ## OpenAI stream chunks and the stream bridge —
src/aiproxy-core/src/providers/openai/mod.rs, src/aiproxy-core/src/stream.rs -/

/-- `OAStreamDelta` (openai/mod.rs lines 133-139, `#[serde(default)]`). -/
structure OAStreamDelta where
  content : Option String
deriving DecidableEq, Repr

/-- `OAStreamChoice` (openai/mod.rs lines 123-130). -/
structure OAStreamChoice where
  delta : OAStreamDelta
  finish_reason : Option String
deriving DecidableEq, Repr

/-- `OAChatStreamChunk` (openai/mod.rs lines 115-120). -/
structure OAChatStreamChunk where
  id : Option String
  choices : List OAStreamChoice
deriving DecidableEq, Repr

/-- serde `Option<String>` from a JSON value: `null` is `None`, a string is
`Some`, anything else is a type error. -/
def decodeOptString : Json → Option (Option String)
  | .null => some none
  | .str s => some (some s)
  | _ => none

/-- serde deserialization of `OAStreamDelta`: unknown fields ignored,
missing/`null` `content` is `None`. -/
def deltaFromJson : Json → Option OAStreamDelta
  | .obj f =>
      match jsonField f "content" with
      | none => some ⟨none⟩
      | some v => (decodeOptString v).map (fun c => ⟨c⟩)
  | _ => none

/-- serde deserialization of `OAStreamChoice`: `delta` defaults when
missing (`#[serde(default)]`), `finish_reason` likewise. -/
def choiceFromJson : Json → Option OAStreamChoice
  | .obj f => do
      let d ← match jsonField f "delta" with
        | none => some (⟨none⟩ : OAStreamDelta)
        | some v => deltaFromJson v
      let fr ← match jsonField f "finish_reason" with
        | none => some (none : Option String)
        | some v => decodeOptString v
      some ⟨d, fr⟩
  | _ => none

/-- serde deserialization of `OAChatStreamChunk`: `choices` is required,
`id` is an implicit-`None` optional. -/
def chunkFromJson : Json → Option OAChatStreamChunk
  | .obj f => do
      let cs ← match jsonField f "choices" with
        | some (.arr xs) => xs.mapM choiceFromJson
        | _ => none
      let idv ← match jsonField f "id" with
        | none => some (none : Option String)
        | some v => decodeOptString v
      some ⟨idv, cs⟩
  | _ => none

/-- `serde_json::from_str::<OAChatStreamChunk>`. -/
def parseChunk (s : String) : Option OAChatStreamChunk :=
  (serde_from_str s).bind chunkFromJson

/-- `map_finish` (openai/mod.rs lines 141-150). -/
def map_finish : Option String → Option StopReason
  | some "stop" => some .stop
  | some "length" => some .length
  | some "content_filter" => some .contentFilter
  | some "tool_calls" => some .toolUse
  | some _ => some .other
  | none => none

/-- `StreamEvent` (stream.rs lines 14-30). -/
inductive StreamEvent where
  | deltaText (s : String)
  | usage (prompt : Option Nat) (completion : Option Nat)
  | stop (reason : Option StopReason)
  | final (resp : ChatResponse)
  | error (e : AiProxyError)
deriving DecidableEq, Repr

/-- `StreamEvent::is_terminal` (stream.rs lines 34-36). -/
def StreamEvent.is_terminal : StreamEvent → Bool
  | .stop _ => true
  | .final _ => true
  | .error _ => true
  | _ => false

/-- Rust `str::strip_prefix("data:")`. -/
def stripDataTag (s : String) : Option String :=
  if startsWith "data:" s then some (String.mk (s.data.drop 5)) else none

/-- The bridge task of `OpenAI::chat_stream_events` (openai/mod.rs lines
264-296), as the list of `StreamEvent`s sent over the channel while
consuming the SSE line stream.  State: the `sent_stop` flag.  An `Err`
item from the line stream sends `Error` and returns; `data: [DONE]` breaks
the loop; after the loop `Stop{reason: None}` is sent unless a stop was
already sent. -/
def chat_stream_events_go (lines : List (Except AiProxyError String))
    (sentStop : Bool) : List StreamEvent :=
  match lines with
  | [] => if sentStop then [] else [.stop none]
  | .error e :: _ => [.error e]
  | .ok line :: tl =>
      let raw := rustTrim line
      if raw = "data: [DONE]" then (if sentStop then [] else [.stop none])
      else
        match stripDataTag raw with
        | some rest =>
            let json := rustTrimStart rest
            if json = "" then chat_stream_events_go tl sentStop
            else
              match parseChunk json with
              | some chunk =>
                  match chunk.choices.head? with
                  | some choice =>
                      let ds := match choice.delta.content with
                        | some t => [StreamEvent.deltaText t]
                        | none => []
                      if !sentStop && choice.finish_reason.isSome then
                        ds ++ StreamEvent.stop (map_finish choice.finish_reason)
                          :: chat_stream_events_go tl true
                      else ds ++ chat_stream_events_go tl sentStop
                  | none => chat_stream_events_go tl sentStop
              | none => chat_stream_events_go tl sentStop
        | none => chat_stream_events_go tl sentStop

/-- The canonical event stream produced by the bridge (fresh `sent_stop`). -/
def chat_stream_events (lines : List (Except AiProxyError String)) : List StreamEvent :=
  chat_stream_events_go lines false

/-! ## Normalizer — src/aiproxy-core/src/normalizer.rs -/

/-- The Unicode NFC step of `clean_text` (normalizer.rs line 7, library
call `s.nfc()` from the unicode_normalization crate).  NFC is idempotent,
and it is the identity on every already-normalized string; every character
appearing in the statements of this development (ASCII, CR, LF, U+FEFF) is
NFC-invariant, so the step is modelled as the identity on the model's
strings. -/
def nfcModel (l : List Char) : List Char := l

/-- Rust `str::replace("\r\n", "\n")`: left-to-right, non-overlapping. -/
def replaceCrlf : List Char → List Char
  | '\r' :: '\n' :: rest => '\n' :: replaceCrlf rest
  | c :: rest => c :: replaceCrlf rest
  | [] => []

/-- `clean_text` (normalizer.rs lines 5-15): NFC, strip one leading BOM
(U+FEFF), replace CRLF with LF (the source guards the replace with a
`contains` test, which does not change the result), trim outer whitespace. -/
def clean_text (s : String) : String :=
  let t := nfcModel s.data
  let t := match t with
    | c :: rest => if c = '\uFEFF' then rest else c :: rest
    | [] => []
  let t := replaceCrlf t
  String.mk (rustTrimL t)

/-- `clamp_round_f32` (normalizer.rs lines 17-21) over exact rationals:
`x.clamp(lo, hi)` is `min (max x lo) hi`, and for the non-negative ranges
used here Rust's round-half-away-from-zero agrees with `round`
(round-half-up). -/
def clamp_round_f32 (x lo hi : ℚ) (dp : Nat) : ℚ :=
  let clamped := min (max x lo) hi
  let p : ℚ := 10 ^ dp
  ((round (clamped * p) : ℤ) : ℚ) / p

/-- Rust `Vec::dedup`: drop consecutive repeats. -/
def vecDedup : List String → List String
  | a :: b :: rest => if a = b then vecDedup (b :: rest) else a :: vecDedup (b :: rest)
  | l => l

/-- Rust `Vec::<String>::sort`: stable sort in lexicographic order (UTF-8
byte order coincides with code-point order).  A stable sort is determined
by the order and the input, so the insertion sort gives the same list. -/
def rustSortStrings (l : List String) : List String :=
  List.insertionSort (fun a b => a ≤ b) l

/-- `normalize_chat` (normalizer.rs lines 23-47). -/
def normalize_chat (req : ChatRequest) : ChatRequest :=
  let msgs := req.messages.map (fun m => { m with content := clean_text m.content })
  let temperature := some (match req.temperature with
    | some t => clamp_round_f32 t 0 2 3
    | none => 1)
  let top_p := some (match req.top_p with
    | some p => clamp_round_f32 p 0 1 4
    | none => 1)
  let stop_sequences := match req.stop_sequences with
    | some stops =>
        let s2 := vecDedup (rustSortStrings stops)
        if s2 = [] then none else some s2
    | none => none
  let max_output_tokens := match req.max_output_tokens with
    | some mx => if mx > 100000 then some 100000 else some mx
    | none => none
  { req with messages := msgs, temperature := temperature, top_p := top_p,
             stop_sequences := stop_sequences, max_output_tokens := max_output_tokens }

/-- The first-occurrence deduplication of `normalize_embed` (`HashSet` +
`retain`). -/
def dedupFirstGo (seen : List String) : List String → List String
  | [] => []
  | x :: rest =>
      if x ∈ seen then dedupFirstGo seen rest
      else x :: dedupFirstGo (x :: seen) rest

/-- `normalize_embed` (normalizer.rs lines 49-58): clean every input, drop
empties, drop duplicates keeping first occurrences. -/
def normalize_embed (req : EmbedRequest) : EmbedRequest :=
  let cleaned := (req.inputs.map clean_text).filter (fun s => s ≠ "")
  { req with inputs := dedupFirstGo [] cleaned }

/-! ## Routing resolver — src/aiproxy-core/src/router.rs -/

/-- A compiled regex is used only through `Regex::is_match`; it is modelled
as its match predicate.  Compilation itself (`Regex::new`) is a library
call and enters the model as a parameter (see `compile_rules`). -/
def Matcher := String → Bool

/-- `CompiledRule` (router.rs lines 11-15). -/
structure CompiledRule where
  regex : Matcher
  provider : String

/-- `RoutingResolver` (router.rs lines 19-23). -/
structure RoutingResolver where
  rules : List CompiledRule
  default_provider : String

/-- The compilation loop of `RoutingResolver::new` (router.rs lines 27-42):
rules are compiled in declared order, and the first pattern the `compile`
function rejects aborts construction with
`Validation("invalid routing regex '<pattern>': <error>")`. -/
def compile_rules (compile : String → Except String Matcher) :
    List (String × String) → Except AiProxyError (List CompiledRule)
  | [] => .ok []
  | (model, provider) :: tl =>
      match compile model with
      | .error e =>
          .error (.validation ("invalid routing regex '" ++ model ++ "': " ++ e))
      | .ok rx =>
          match compile_rules compile tl with
          | .ok rest => .ok (⟨rx, provider⟩ :: rest)
          | .error err => .error err

/-- `RoutingResolver::new`, parameterized by the regex compiler. -/
def RoutingResolver.new (compile : String → Except String Matcher)
    (rules : List (String × String)) (defaultProvider : String) :
    Except AiProxyError RoutingResolver :=
  match compile_rules compile rules with
  | .ok rs => .ok ⟨rs, defaultProvider⟩
  | .error e => .error e

/-- The scan of `pick_provider_name` (router.rs lines 44-51). -/
def pickGo (defaultProvider : String) (model : String) :
    List CompiledRule → String
  | [] => defaultProvider
  | r :: tl => if r.regex model then r.provider else pickGo defaultProvider model tl

/-- `RoutingResolver::pick_provider_name`. -/
def pick_provider_name (rv : RoutingResolver) (model : String) : String :=
  pickGo rv.default_provider model rv.rules

/-- `ProviderRegistry` (provider_factory.rs lines 69-73) restricted to what
the claims observe: the key sets of the `chat` and `embed` maps (the mapped
adapters never enter any claim). -/
structure ProviderRegistry where
  chat : List String
  embed : List String
deriving DecidableEq, Repr

/-- `RoutingResolver::select_chat` (router.rs lines 54-65): pick the name,
look it up in the registry's chat map. -/
def select_chat (rv : RoutingResolver) (reg : ProviderRegistry)
    (model : String) : Except AiProxyError String :=
  let name := pick_provider_name rv model
  if name ∈ reg.chat then .ok name
  else .error (.validation ("provider '" ++ name ++ "' not found or lacks chat capability"))

/-- `RoutingResolver::select_embed` (router.rs lines 68-79). -/
def select_embed (rv : RoutingResolver) (reg : ProviderRegistry)
    (model : String) : Except AiProxyError String :=
  let name := pick_provider_name rv model
  if name ∈ reg.embed then .ok name
  else .error (.validation ("provider '" ++ name ++ "' not found or lacks embed capability"))

/-! ## Provider factory — src/aiproxy-core/src/provider_factory.rs -/

/-- `RoutingRule` from config.rs (a pattern/provider pair). -/
structure RoutingRule where
  model : String
  provider : String
deriving DecidableEq, Repr

/-- `RoutingCfg` from config.rs. -/
structure RoutingCfg where
  default : String
  rules : List RoutingRule
deriving DecidableEq, Repr

/-- The part of `Config` that `from_config` and the resolver read. -/
structure Config where
  routing : RoutingCfg
deriving DecidableEq, Repr

/-- The process environment as read by `from_config`
(`std::env::var` results). -/
structure EnvVars where
  openai_api_key : Option String
  openai_base : Option String
  openai_org : Option String
  openai_project : Option String
  openrouter_api_key : Option String
  openrouter_base : Option String
  anthropic_api_key : Option String
deriving DecidableEq, Repr

/-- `redact_tail` (provider_factory.rs lines 11-21): `***` plus the last
four characters. -/
def redact_tail (s : String) : String :=
  "***" ++ String.mk (s.data.reverse.take 4).reverse

/-- `looks_like_openai_key` (provider_factory.rs lines 22-24).  Rust
measures bytes; keys are ASCII, where bytes and characters coincide. -/
def looks_like_openai_key (s : String) : Bool :=
  startsWith "sk-" s && s.length ≥ 40

/-- `looks_like_openrouter_key` (provider_factory.rs lines 25-27). -/
def looks_like_openrouter_key (s : String) : Bool :=
  startsWith "sk-or-" s && s.length ≥ 20

/-- `is_openai_project_key` (provider_factory.rs lines 28-30). -/
def is_openai_project_key (s : String) : Bool :=
  startsWith "sk-proj-" s

/-- `validate_openai_key` (provider_factory.rs lines 32-40). -/
def validate_openai_key (s : String) : Except AiProxyError String :=
  if !looks_like_openai_key s then
    .error (.validation ("OPENAI_API_KEY looks invalid: " ++ redact_tail s))
  else .ok s

/-- `validate_openrouter_key` (provider_factory.rs lines 42-50). -/
def validate_openrouter_key (s : String) : Except AiProxyError String :=
  if !looks_like_openrouter_key s then
    .error (.validation ("OPENROUTER_API_KEY looks invalid: " ++ redact_tail s))
  else .ok s

/-- `is_provider_referenced` (provider_factory.rs lines 52-57). -/
def is_provider_referenced (cfg : Config) (name : String) : Bool :=
  cfg.routing.default = name || cfg.routing.rules.any (fun r => r.provider = name)

/-- The OpenAI block of `from_config` (provider_factory.rs lines 89-112):
no key means skip; an invalid-shape key aborts; a project-scoped key
without `OPENAI_PROJECT` aborts when routing references `openai` and is
silently skipped otherwise; otherwise `openai` is registered for chat and
embed. -/
def register_openai (cfg : Config) (env : EnvVars) (reg : ProviderRegistry) :
    Except AiProxyError ProviderRegistry :=
  match env.openai_api_key with
  | none => .ok reg
  | some raw =>
      match validate_openai_key raw with
      | .error e => .error e
      | .ok api_key =>
          if is_openai_project_key api_key && env.openai_project.isNone then
            if is_provider_referenced cfg "openai" then
              .error (.validation "Project-scoped OpenAI key detected (sk-proj-â€¦). Please set OPENAI_PROJECT=<project_id>.")
            else .ok reg
          else .ok ⟨reg.chat ++ ["openai"], reg.embed ++ ["openai"]⟩

/-- The OpenRouter block of `from_config` (provider_factory.rs lines
113-123). -/
def register_openrouter (env : EnvVars) (reg : ProviderRegistry) :
    Except AiProxyError ProviderRegistry :=
  match env.openrouter_api_key with
  | none => .ok reg
  | some raw =>
      match validate_openrouter_key raw with
      | .error e => .error e
      | .ok _ => .ok ⟨reg.chat ++ ["openrouter"], reg.embed ++ ["openrouter"]⟩

/-- `ProviderRegistry::from_config` (provider_factory.rs lines 78-135):
`null` is always preregistered, then the OpenAI and OpenRouter blocks run.
The function contains no Anthropic block and never reads
`ANTHROPIC_API_KEY` (the `has_any_provider` check at lines 127-132 has an
empty body). -/
def from_config (cfg : Config) (env : EnvVars) :
    Except AiProxyError ProviderRegistry :=
  match register_openai cfg env ⟨["null"], ["null"]⟩ with
  | .error e => .error e
  | .ok r1 => register_openrouter env r1

/-! ## Anthropic adapter — src/aiproxy-core/src/providers/anthropic/mod.rs -/

/-- `ANTHROPIC_API_VERSION` (anthropic/mod.rs line 15). -/
def ANTHROPIC_API_VERSION : String := "2023-06-01"

/-- `AContent` (anthropic/mod.rs lines 89-93): a `type: "text"` block. -/
inductive AContent where
  | text (text : String)
deriving DecidableEq, Repr

/-- `AMessage` (anthropic/mod.rs lines 83-87). -/
structure AMessage where
  role : String
  content : List AContent
deriving DecidableEq, Repr

/-- `AMsgReq` (anthropic/mod.rs lines 70-81); `system` is skipped when
`None` (absent from the wire payload). -/
structure AMsgReq where
  model : String
  messages : List AMessage
  system : Option String
  max_tokens : Nat
  temperature : Option ℚ
  top_p : Option ℚ
deriving DecidableEq, Repr

/-- `ARespContent` (anthropic/mod.rs lines 107-112). -/
structure ARespContent where
  type : String
  text : Option String
deriving DecidableEq, Repr

/-- `AUsage` (anthropic/mod.rs lines 114-118). -/
structure AUsage where
  input_tokens : Option Nat
  output_tokens : Option Nat
deriving DecidableEq, Repr

/-- `AMsgResp` (anthropic/mod.rs lines 95-105). -/
structure AMsgResp where
  id : String
  model : Option String
  content : List ARespContent
  stop_reason : Option String
  usage : Option AUsage
deriving DecidableEq, Repr

/-- `Anthropic::map_stop` (anthropic/mod.rs lines 48-56). -/
def Anthropic.map_stop : Option String → Option StopReason
  | some "end_turn" => some .endTurn
  | some "max_tokens" => some .length
  | some "tool_use" => some .toolUse
  | some "stop_sequence" => some .stop
  | _ => none

/-- `Anthropic::headers` (anthropic/mod.rs lines 35-46): the context is
ignored. -/
def Anthropic.headers (apiKey : String) (_ctx : RequestCtx) :
    List (String × String) :=
  [("x-api-key", apiKey), ("anthropic-version", ANTHROPIC_API_VERSION)]

/-- The request-mapping half of `Anthropic::chat` (anthropic/mod.rs lines
126-161): System contents are collected, User/Assistant messages become
one-text-block messages, any other role is ignored; `system` joins the
collected prompts with `\n` and is absent when none exist; `max_tokens` is
`max_output_tokens.unwrap_or(1024).max(1)`. -/
def Anthropic.build_request (req : ChatRequest) : AMsgReq :=
  let system_prompts := req.messages.filterMap (fun m =>
    match m.role with
    | .system => some m.content
    | _ => none)
  let msgs := req.messages.filterMap (fun m =>
    match m.role with
    | .user => some (⟨"user", [AContent.text m.content]⟩ : AMessage)
    | .assistant => some (⟨"assistant", [AContent.text m.content]⟩ : AMessage)
    | _ => none)
  let system := if system_prompts.isEmpty then none
    else some (String.intercalate "\n" system_prompts)
  let max_tokens := max (req.max_output_tokens.getD 1024) 1
  ⟨req.model, msgs, system, max_tokens, req.temperature, req.top_p⟩

/-- The request context `Anthropic::chat` passes to the HTTP call
(anthropic/mod.rs line 164): `RequestCtx::default()`, whatever the
request's context IDs. -/
def Anthropic.chat_ctx (_req : ChatRequest) : RequestCtx := RequestCtx.default

/-- The response-mapping half of `Anthropic::chat` (anthropic/mod.rs lines
180-211): `text` is the first `content[*].text` found, the stop reason
goes through `map_stop`, usage comes from `input_tokens`/`output_tokens`
(default 0), and `turn_id` is `ctx.turn_id.unwrap_or("")` for the default
context. -/
def Anthropic.build_response (req : ChatRequest) (resp : AMsgResp)
    (provider_request_id : Option String) (latency_ms : Nat) (started : Int) :
    ChatResponse :=
  let ctx := Anthropic.chat_ctx req
  let text := (resp.content.findSome? (fun c => c.text)).getD ""
  let stop := Anthropic.map_stop resp.stop_reason
  let usage_in := (resp.usage.bind (fun u => u.input_tokens)).getD 0
  let usage_out := (resp.usage.bind (fun u => u.output_tokens)).getD 0
  { model := req.model, text := text, usage_prompt := usage_in,
    usage_completion := usage_out, cached := false, provider := "anthropic",
    transcript_id := none, turn_id := ctx.turn_id.getD "",
    stop_reason := stop, provider_request_id := provider_request_id,
    created_at_ms := started, latency_ms := latency_ms }

/-! ## JSON serialization of the canonical model — serde derives on
src/aiproxy-core/src/model.rs

The derived `Serialize`/`Deserialize` implementations are modelled at the
`serde_json::Value` level (`to_string`/`from_str` factor through it):
structs are objects with their fields in declaration order, `Option` fields
serialize `None` as `null` (model.rs uses no `skip_serializing_if`), and
deserialize `null` — or an absent field — back to `None`.  `u32`/`i64`
fields are modelled as unbounded `Nat`/`Int`, `f32` as exact `ℚ`. -/

/-- serde `String` to JSON. -/
def encodeString (s : String) : Json := .str s

/-- serde `String` from JSON. -/
def decodeString : Json → Option String
  | .str s => some s
  | _ => none

/-- serde unsigned integer to JSON. -/
def encodeNat (n : Nat) : Json := .num n

/-- serde unsigned integer from JSON (an integral, non-negative number). -/
def decodeNat : Json → Option Nat
  | .num q => if q.den = 1 && 0 ≤ q.num then some q.num.toNat else none
  | _ => none

/-- serde signed integer to JSON. -/
def encodeInt (i : Int) : Json := .num i

/-- serde signed integer from JSON. -/
def decodeInt : Json → Option Int
  | .num q => if q.den = 1 then some q.num else none
  | _ => none

/-- serde float to JSON (exact-rational model). -/
def encodeRat (x : ℚ) : Json := .num x

/-- serde float from JSON. -/
def decodeRat : Json → Option ℚ
  | .num q => some q
  | _ => none

/-- serde `bool` from JSON. -/
def decodeBool : Json → Option Bool
  | .bool b => some b
  | _ => none

/-- serde `Option<T>` to JSON: `None` is `null`. -/
def encodeOpt (enc : α → Json) : Option α → Json
  | none => .null
  | some x => enc x

/-- serde `Option<T>` from JSON: `null` is `None`. -/
def decodeOpt (dec : Json → Option α) : Json → Option (Option α)
  | .null => some none
  | v => (dec v).map some

/-- serde `Vec<T>` to JSON. -/
def encodeList (enc : α → Json) (l : List α) : Json := .arr (l.map enc)

/-- serde `Vec<T>` element folding (the sequence visitor). -/
def decodeElems (dec : Json → Option α) : List Json → Option (List α)
  | [] => some []
  | x :: tl => do
      let a ← dec x
      let rest ← decodeElems dec tl
      some (a :: rest)

/-- serde `Vec<T>` from JSON. -/
def decodeList (dec : Json → Option α) : Json → Option (List α)
  | .arr xs => decodeElems dec xs
  | _ => none

/-- A required struct field. -/
def getField (fields : List (String × Json)) (name : String)
    (dec : Json → Option α) : Option α :=
  (jsonField fields name).bind dec

/-- An `Option` struct field: absent or `null` is `None`. -/
def getOptField (fields : List (String × Json)) (name : String)
    (dec : Json → Option α) : Option (Option α) :=
  match jsonField fields name with
  | none => some none
  | some v => decodeOpt dec v

/-- `Role` to JSON (`rename_all = "lowercase"`). -/
def encodeRole : Role → Json
  | .system => .str "system"
  | .user => .str "user"
  | .assistant => .str "assistant"
  | .tool => .str "tool"

/-- `Role` from JSON. -/
def decodeRole : Json → Option Role
  | .str "system" => some .system
  | .str "user" => some .user
  | .str "assistant" => some .assistant
  | .str "tool" => some .tool
  | _ => none

/-- `StopReason` to JSON (`rename_all = "snake_case"`). -/
def encodeStopReason : StopReason → Json
  | .stop => .str "stop"
  | .length => .str "length"
  | .toolUse => .str "tool_use"
  | .endTurn => .str "end_turn"
  | .contentFilter => .str "content_filter"
  | .other => .str "other"

/-- `StopReason` from JSON. -/
def decodeStopReason : Json → Option StopReason
  | .str "stop" => some .stop
  | .str "length" => some .length
  | .str "tool_use" => some .toolUse
  | .str "end_turn" => some .endTurn
  | .str "content_filter" => some .contentFilter
  | .str "other" => some .other
  | _ => none

/-- `ChatMessage` to JSON. -/
def encodeChatMessage (m : ChatMessage) : Json :=
  .obj [("role", encodeRole m.role), ("content", encodeString m.content)]

/-- `ChatMessage` from JSON. -/
def decodeChatMessage : Json → Option ChatMessage
  | .obj f => do
      let role ← getField f "role" decodeRole
      let content ← getField f "content" decodeString
      some ⟨role, content⟩
  | _ => none

/-- `serde_json::Value` (the `metadata` field) to JSON: the identity. -/
def encodeMeta : Option Json → Json
  | none => .null
  | some v => v

/-- serde `Option<Value>` from JSON: `null` deserializes to `None` — also
when it was produced from `Some(Value::Null)`. -/
def decodeMeta : Json → Option (Option Json)
  | .null => some none
  | v => some (some v)

/-- `ChatRequest` to JSON. -/
def encodeChatRequest (r : ChatRequest) : Json :=
  .obj [("model", encodeString r.model),
        ("messages", encodeList encodeChatMessage r.messages),
        ("temperature", encodeOpt encodeRat r.temperature),
        ("top_p", encodeOpt encodeRat r.top_p),
        ("metadata", encodeMeta r.metadata),
        ("client_key", encodeOpt encodeString r.client_key),
        ("request_id", encodeOpt encodeString r.request_id),
        ("trace_id", encodeOpt encodeString r.trace_id),
        ("idempotency_key", encodeOpt encodeString r.idempotency_key),
        ("max_output_tokens", encodeOpt encodeNat r.max_output_tokens),
        ("stop_sequences", encodeOpt (encodeList encodeString) r.stop_sequences)]

/-- `ChatRequest` from JSON. -/
def decodeChatRequest : Json → Option ChatRequest
  | .obj f => do
      let model ← getField f "model" decodeString
      let messages ← getField f "messages" (decodeList decodeChatMessage)
      let temperature ← getOptField f "temperature" decodeRat
      let top_p ← getOptField f "top_p" decodeRat
      let metadata ← match jsonField f "metadata" with
        | none => some none
        | some v => decodeMeta v
      let client_key ← getOptField f "client_key" decodeString
      let request_id ← getOptField f "request_id" decodeString
      let trace_id ← getOptField f "trace_id" decodeString
      let idempotency_key ← getOptField f "idempotency_key" decodeString
      let max_output_tokens ← getOptField f "max_output_tokens" decodeNat
      let stop_sequences ← getOptField f "stop_sequences" (decodeList decodeString)
      some ⟨model, messages, temperature, top_p, metadata, client_key,
            request_id, trace_id, idempotency_key, max_output_tokens,
            stop_sequences⟩
  | _ => none

/-- `ChatResponse` to JSON. -/
def encodeChatResponse (r : ChatResponse) : Json :=
  .obj [("model", encodeString r.model),
        ("text", encodeString r.text),
        ("usage_prompt", encodeNat r.usage_prompt),
        ("usage_completion", encodeNat r.usage_completion),
        ("cached", .bool r.cached),
        ("provider", encodeString r.provider),
        ("transcript_id", encodeOpt encodeString r.transcript_id),
        ("turn_id", encodeString r.turn_id),
        ("stop_reason", encodeOpt encodeStopReason r.stop_reason),
        ("provider_request_id", encodeOpt encodeString r.provider_request_id),
        ("created_at_ms", encodeInt r.created_at_ms),
        ("latency_ms", encodeNat r.latency_ms)]

/-- `ChatResponse` from JSON. -/
def decodeChatResponse : Json → Option ChatResponse
  | .obj f => do
      let model ← getField f "model" decodeString
      let text ← getField f "text" decodeString
      let usage_prompt ← getField f "usage_prompt" decodeNat
      let usage_completion ← getField f "usage_completion" decodeNat
      let cached ← getField f "cached" decodeBool
      let provider ← getField f "provider" decodeString
      let transcript_id ← getOptField f "transcript_id" decodeString
      let turn_id ← getField f "turn_id" decodeString
      let stop_reason ← getOptField f "stop_reason" decodeStopReason
      let provider_request_id ← getOptField f "provider_request_id" decodeString
      let created_at_ms ← getField f "created_at_ms" decodeInt
      let latency_ms ← getField f "latency_ms" decodeNat
      some ⟨model, text, usage_prompt, usage_completion, cached, provider,
            transcript_id, turn_id, stop_reason, provider_request_id,
            created_at_ms, latency_ms⟩
  | _ => none

/-- `EmbedRequest` to JSON. -/
def encodeEmbedRequest (r : EmbedRequest) : Json :=
  .obj [("model", encodeString r.model),
        ("inputs", encodeList encodeString r.inputs),
        ("client_key", encodeOpt encodeString r.client_key)]

/-- `EmbedRequest` from JSON. -/
def decodeEmbedRequest : Json → Option EmbedRequest
  | .obj f => do
      let model ← getField f "model" decodeString
      let inputs ← getField f "inputs" (decodeList decodeString)
      let client_key ← getOptField f "client_key" decodeString
      some ⟨model, inputs, client_key⟩
  | _ => none

/-- `EmbedResponse` to JSON. -/
def encodeEmbedResponse (r : EmbedResponse) : Json :=
  .obj [("model", encodeString r.model),
        ("vectors", encodeList (encodeList encodeRat) r.vectors),
        ("usage", encodeNat r.usage),
        ("cached", .bool r.cached),
        ("provider", encodeString r.provider)]

/-- `EmbedResponse` from JSON. -/
def decodeEmbedResponse : Json → Option EmbedResponse
  | .obj f => do
      let model ← getField f "model" decodeString
      let vectors ← getField f "vectors" (decodeList (decodeList decodeRat))
      let usage ← getField f "usage" decodeNat
      let cached ← getField f "cached" decodeBool
      let provider ← getField f "provider" decodeString
      some ⟨model, vectors, usage, cached, provider⟩
  | _ => none

/-! # Theorems -/

/-! ## Shared helper lemmas -/

theorem findSome?_eq_head?_filterMap {α β : Type} (f : α → Option β) (l : List α) :
    l.findSome? f = (l.filterMap f).head? := by
  induction l with
  | nil => rfl
  | cons a tl ih =>
      cases h : f a with
      | none => rw [List.findSome?_cons, List.filterMap_cons, h, ih]
      | some b => rw [List.findSome?_cons, List.filterMap_cons, h]; rfl

theorem parse_retry_after_some (v : String) :
    parse_retry_after (some v) = parseU64 (rustTrim v) := by
  unfold parse_retry_after
  cases h : parseU64 (rustTrim v) <;> simp [h]

/-! ## C3: HTTP status → error mapping -/

/-- C3: for every non-2xx status `s`, the transport produces exactly one of
`RateLimited` (iff `s = 429`, with `retry_after` the numeric parse of the
`Retry-After` header, absent when non-numeric or missing),
`ProviderUnavailable` (iff `500 ≤ s ≤ 599`), or `ProviderError` carrying the
upstream status as its code and the body truncated to 300 characters with
an ellipsis suffix; a 2xx response with undecodable JSON yields
`ProviderError` with the status as code and a message starting with
`"json decode error: "`; transport/connect failures yield
`ProviderUnavailable`. -/
theorem c3_http_error_mapping (s : Nat) (ra : Option String) (body e : String)
    (hns : ¬ (200 ≤ s ∧ s ≤ 299)) :
    (∀ d, post_json (.response s ra body d) =
        .error (map_http_error "http" s (parse_retry_after ra) body)) ∧
    (map_http_error "http" s (parse_retry_after ra) body =
        .rateLimited "http" (parse_retry_after ra) ↔ s = 429) ∧
    (map_http_error "http" s (parse_retry_after ra) body =
        .providerUnavailable "http" ↔ (500 ≤ s ∧ s ≤ 599)) ∧
    (s ≠ 429 → ¬ (500 ≤ s ∧ s ≤ 599) →
        map_http_error "http" s (parse_retry_after ra) body =
          .providerError "http" (toString s) (truncate body 300)) ∧
    (parse_retry_after none = none) ∧
    (∀ v, parse_retry_after (some v) = parseU64 (rustTrim v)) ∧
    (∀ s2, 200 ≤ s2 → s2 ≤ 299 →
        post_json (.response s2 ra body (some e)) =
          .error (.providerError "http" (toString s2) ("json decode error: " ++ e))) ∧
    (post_json .transportError = .error (.providerUnavailable "http")) := by
  refine ⟨?_, ?_, ?_, ?_, rfl, parse_retry_after_some, ?_, rfl⟩
  · intro d
    unfold post_json
    have : ¬ (200 ≤ s && s ≤ 299) = true := by
      simpa [Bool.and_eq_true, decide_eq_true_eq] using hns
    simp [this]
  · unfold map_http_error
    split
    · simp_all
    · split <;> simp_all
  · unfold map_http_error
    constructor
    · intro h
      split at h
      · exact absurd h (by simp)
      · split at h
        · simp_all [Bool.and_eq_true, decide_eq_true_eq]
        · exact absurd h (by simp)
    · intro h
      have h429 : s ≠ 429 := by omega
      simp [h429, h.1, h.2]
  · intro h429 hsrv
    unfold map_http_error
    have : ¬ (500 ≤ s && s ≤ 599) = true := by
      simpa [Bool.and_eq_true, decide_eq_true_eq] using hsrv
    simp [h429, this]
  · intro s2 h1 h2
    unfold post_json
    simp [h1, h2]

/-- C3 witness: concrete evaluation of the mapping at a 429 with
`Retry-After: 3`. -/
theorem c3_http_error_mapping_witness :
    (¬ (200 ≤ 429 ∧ 429 ≤ 299)) ∧
    (map_http_error "http" 429 (parse_retry_after (some "3")) "slow down" =
        .rateLimited "http" (parse_retry_after (some "3")) ↔ 429 = 429) := by
  refine ⟨by decide, ?_⟩
  exact (c3_http_error_mapping 429 (some "3") "slow down" "err" (by decide)).2.1

/-! ## C1: retry policy -/

/-- C1 counterexample: a request carrying an idempotency key whose first
attempt fails with the retryable status 429 and whose second attempt would
succeed.  The claim demands a retry (with an `X-Retry-Attempt` header and
the success of the second attempt); the transport in the source issues
exactly one request, returns the mapped first failure, and never applies
any `X-Retry-Attempt` header. -/
theorem c1_counterexample :
    post_json_attempts ⟨none, none, some "idem-1"⟩
        (.response 429 none "slow down" none)
        [.response 200 none "ok" none] =
      (.error (.rateLimited "http" none), 1) ∧
    retryableOutcome (.response 429 none "slow down" none) = true ∧
    "X-Retry-Attempt" ∉
      (post_json_headers ⟨none, none, some "idem-1"⟩ []).map Prod.fst := by
  refine ⟨rfl, rfl, by decide⟩

/-- C1 (amended): the transport never retries, with or without an
idempotency key: exactly one request is issued and its outcome — mapped
through the error mapping — is returned immediately, the remaining
would-be attempts are never consulted, and an `X-Retry-Attempt` header is
applied only if the caller passed one in explicitly (the transport itself
never adds it).  The claim's second half (no retries without an
idempotency key) holds as a special case. -/
theorem c1_never_retries (ctx : RequestCtx) (first : HttpOutcome)
    (later later' : List HttpOutcome) (custom : List (String × String)) :
    post_json_attempts ctx first later = (post_json first, 1) ∧
    post_json_attempts ctx first later = post_json_attempts ctx first later' ∧
    ("X-Retry-Attempt" ∈ (post_json_headers ctx custom).map Prod.fst ↔
      "X-Retry-Attempt" ∈ custom.map Prod.fst) := by
  refine ⟨rfl, rfl, ?_⟩
  unfold post_json_headers apply_ctx_headers
  rcases ctx with ⟨rid, tid, ik⟩
  cases rid <;> cases tid <;> cases ik <;> simp

/-! ## C10: Anthropic ignores the request context -/

/-- C10: the Anthropic adapter's chat issues its HTTP call with an empty
request context: regardless of the request's `request_id`, `trace_id` and
`idempotency_key`, the context is `RequestCtx::default()` (so
`apply_ctx_headers` adds no `X-Request-Id`, `X-Turn-Id` or
`Idempotency-Key` header and the adapter headers are exactly `x-api-key`
and `anthropic-version`), the outbound payload is unchanged by the context
IDs, and the returned `ChatResponse.turn_id` is always the empty string. -/
theorem c10_anthropic_empty_ctx (req : ChatRequest) (resp : AMsgResp)
    (pid : Option String) (lat : Nat) (started : Int)
    (hdrs : List (String × String)) (apiKey : String)
    (rid tid ik : Option String) :
    Anthropic.chat_ctx req = ⟨none, none, none⟩ ∧
    apply_ctx_headers (Anthropic.chat_ctx req) hdrs = hdrs ∧
    Anthropic.headers apiKey (Anthropic.chat_ctx req) =
      [("x-api-key", apiKey), ("anthropic-version", "2023-06-01")] ∧
    (Anthropic.build_response req resp pid lat started).turn_id = "" ∧
    Anthropic.build_request
        { req with request_id := rid, trace_id := tid, idempotency_key := ik } =
      Anthropic.build_request req := by
  exact ⟨rfl, rfl, rfl, rfl, rfl⟩

/-! ## C7: Anthropic request/response mapping -/

theorem anthropic_system_prompts_eq (msgs : List ChatMessage) :
    msgs.filterMap (fun m =>
        match m.role with
        | Role.system => some m.content
        | _ => none) =
      (msgs.filter (fun m => m.role == Role.system)).map ChatMessage.content := by
  induction msgs with
  | nil => rfl
  | cons m tl ih =>
      cases hr : m.role <;>
        simp [List.filterMap_cons, List.filter_cons, hr, ih]

theorem anthropic_messages_eq (msgs : List ChatMessage) :
    msgs.filterMap (fun m =>
        match m.role with
        | Role.user => some (⟨"user", [AContent.text m.content]⟩ : AMessage)
        | Role.assistant => some (⟨"assistant", [AContent.text m.content]⟩ : AMessage)
        | _ => none) =
      (msgs.filter
          (fun m => m.role == Role.user || m.role == Role.assistant)).map
        (fun m => ⟨if m.role == Role.user then "user" else "assistant",
                   [AContent.text m.content]⟩) := by
  induction msgs with
  | nil => rfl
  | cons m tl ih =>
      cases hr : m.role <;>
        simp [List.filterMap_cons, List.filter_cons, hr, ih]

/-- C7: for every `ChatRequest`, the Anthropic adapter concatenates the
System-role contents with `"\n"` (in order) into the single optional
top-level `system` field (absent when there are no System messages), maps
the User/Assistant messages in order to messages whose content is the
one-element array `[{type: "text", text: …}]` (dropping Tool-role
messages), and sets `max_tokens` to `max_output_tokens` floored at 1 when
present and 1024 when absent; the response maps `text` to the first
`content[*].text` found, the stop reason via `end_turn → EndTurn`,
`max_tokens → Length`, `tool_use → ToolUse`, `stop_sequence → Stop`, else
absent, and usage from `input_tokens`/`output_tokens` (default 0). -/
theorem c7_anthropic_chat_mapping (req : ChatRequest) (resp : AMsgResp)
    (pid : Option String) (lat : Nat) (st : Int) :
    ((Anthropic.build_request req).system =
      (if (req.messages.filter (fun m => m.role == Role.system)).isEmpty then none
       else some (String.intercalate "\n"
         ((req.messages.filter (fun m => m.role == Role.system)).map
           ChatMessage.content)))) ∧
    ((Anthropic.build_request req).messages =
      (req.messages.filter
          (fun m => m.role == Role.user || m.role == Role.assistant)).map
        (fun m => ⟨if m.role == Role.user then "user" else "assistant",
                   [AContent.text m.content]⟩)) ∧
    ((Anthropic.build_request req).max_tokens =
      match req.max_output_tokens with
      | some n => max n 1
      | none => 1024) ∧
    ((Anthropic.build_response req resp pid lat st).text =
      ((resp.content.filterMap ARespContent.text).head?).getD "") ∧
    ((Anthropic.build_response req resp pid lat st).stop_reason =
      Anthropic.map_stop resp.stop_reason) ∧
    (∀ s : String, Anthropic.map_stop (some s) =
      (if s = "end_turn" then some StopReason.endTurn
       else if s = "max_tokens" then some StopReason.length
       else if s = "tool_use" then some StopReason.toolUse
       else if s = "stop_sequence" then some StopReason.stop
       else none)) ∧
    (Anthropic.map_stop none = none) ∧
    ((Anthropic.build_response req resp pid lat st).usage_prompt =
      match resp.usage with
      | some u => u.input_tokens.getD 0
      | none => 0) ∧
    ((Anthropic.build_response req resp pid lat st).usage_completion =
      match resp.usage with
      | some u => u.output_tokens.getD 0
      | none => 0) := by
  refine ⟨?_, ?_, ?_, ?_, rfl, ?_, rfl, ?_, ?_⟩
  · unfold Anthropic.build_request
    simp only [anthropic_system_prompts_eq]
    rcases h : req.messages.filter (fun m => m.role == Role.system) with _ | _ <;> simp
  · unfold Anthropic.build_request
    simp only [anthropic_messages_eq]
  · unfold Anthropic.build_request
    cases req.max_output_tokens with
    | none => rfl
    | some n => simp [Option.getD, Nat.max_comm]
  · unfold Anthropic.build_response
    simp only
    rw [findSome?_eq_head?_filterMap]
  · intro s
    unfold Anthropic.map_stop
    split <;> simp_all
  · unfold Anthropic.build_response
    cases resp.usage <;> simp
  · unfold Anthropic.build_response
    cases resp.usage <;> simp

/-! ## C6: routing resolution -/

/-- C6: the resolver scans the compiled rules in declared order and selects
the provider of the first rule whose regex matches (`find?`), regardless of
later rules — a match in the earlier rules makes every later rule
irrelevant; when no rule matches it selects the default.  The selected name
is looked up in the registry for the requested capability, and a missing
entry yields `Validation("provider '<name>' not found or lacks <chat|embed>
capability")`.  An invalid pattern (one the regex compiler rejects, the
compiler entering the model as a parameter) fails construction with a
`Validation` whose message extends `"invalid routing regex"`. -/
theorem c6_first_match_wins (rv : RoutingResolver) (reg : ProviderRegistry)
    (model : String) (m : Matcher) (p : String)
    (rulesPre rulesPost : List CompiledRule)
    (compile : String → Except String Matcher)
    (rules' : List (String × String)) (pat prov e : String) (defaultP : String)
    (hpre : ∀ r ∈ rulesPre, r.regex model = false) (hm : m model = true)
    (hbad : compile pat = .error e) :
    (pick_provider_name rv model =
      ((rv.rules.find? (fun r => r.regex model)).map CompiledRule.provider).getD
        rv.default_provider) ∧
    (pickGo rv.default_provider model (rulesPre ++ ⟨m, p⟩ :: rulesPost) = p) ∧
    (pick_provider_name rv model ∉ reg.chat →
      select_chat rv reg model =
        .error (.validation ("provider '" ++ pick_provider_name rv model ++
          "' not found or lacks chat capability"))) ∧
    (pick_provider_name rv model ∈ reg.chat →
      select_chat rv reg model = .ok (pick_provider_name rv model)) ∧
    (pick_provider_name rv model ∉ reg.embed →
      select_embed rv reg model =
        .error (.validation ("provider '" ++ pick_provider_name rv model ++
          "' not found or lacks embed capability"))) ∧
    (∀ prefixRules, (∀ r ∈ prefixRules, ∃ mr, compile r.1 = .ok mr) →
      rules' = prefixRules ++ (pat, prov) :: [] →
      ∃ msg, RoutingResolver.new compile rules' defaultP =
          .error (.validation msg) ∧
        msg = "invalid routing regex '" ++ pat ++ "': " ++ e) := by
  refine ⟨?_, ?_, ?_, ?_, ?_, ?_⟩
  · unfold pick_provider_name
    induction rv.rules with
    | nil => rfl
    | cons r tl ih =>
        unfold pickGo
        cases hr : r.regex model <;> simp [List.find?_cons, hr, ih]
  · induction rulesPre with
    | nil => simp [pickGo, hm]
    | cons r tl ih =>
        rw [List.cons_append]
        have hr := hpre r (by simp)
        simp only [pickGo, hr]
        simp only [Bool.false_eq_true, if_false]
        exact ih (fun r' hr' => hpre r' (by simp [hr']))
  · intro h
    unfold select_chat
    simp [h]
  · intro h
    unfold select_chat
    simp [h]
  · intro h
    unfold select_embed
    simp [h]
  · intro prefixRules hok hrules
    refine ⟨"invalid routing regex '" ++ pat ++ "': " ++ e, ?_, rfl⟩
    subst hrules
    unfold RoutingResolver.new
    induction prefixRules with
    | nil => simp [compile_rules, hbad]
    | cons r tl ih =>
        obtain ⟨mr, hmr⟩ := hok r (by simp)
        have ihres := ih (fun r' hr' => hok r' (by simp [hr']))
        rcases r with ⟨rpat, rprov⟩
        simp only [compile_rules, List.cons_append, hmr] at *
        split at ihres <;> simp_all [compile_rules]

/-- C6 witness: first-match-wins at a concrete rule list — an earlier
`gpt-4o`-matching rule wins over a later always-matching rule — with a
concrete compiler rejecting `"("`. -/
theorem c6_first_match_wins_witness :
    pickGo "null" "gpt-4o"
      ([] ++ (⟨fun s => s == "gpt-4o", "nullp"⟩ : CompiledRule) ::
        [⟨fun _ => true, "missing"⟩]) = "nullp" :=
  (c6_first_match_wins ⟨[], "null"⟩ ⟨["null"], ["null"]⟩ "gpt-4o"
    (fun s => s == "gpt-4o") "nullp" [] [⟨fun _ => true, "missing"⟩]
    (fun pt => if pt = "(" then .error "unclosed group" else .ok (fun _ => true))
    [("(", "x")] "(" "x" "unclosed group" "d"
    (by simp) (by rfl) (by rfl)).2.1

/-! ## C4: registry construction -/

/-- C4 counterexample: with `ANTHROPIC_API_KEY` set (and no other key),
registry construction succeeds with only the `null` provider — Anthropic
is not registered, although the claim says a set Anthropic key registers
it. -/
theorem c4_counterexample :
    from_config ⟨⟨"null", []⟩⟩
        ⟨none, none, none, none, none, none, some "sk-ant-REDACTED"⟩ =
      .ok ⟨["null"], ["null"]⟩ ∧
    "anthropic" ∉ (⟨["null"], ["null"]⟩ : ProviderRegistry).chat ∧
    "anthropic" ∉ (⟨["null"], ["null"]⟩ : ProviderRegistry).embed := by
  refine ⟨rfl, by decide, by decide⟩


theorem register_openai_none (cfg : Config) (env : EnvVars)
    (reg : ProviderRegistry) (h : env.openai_api_key = none) :
    register_openai cfg env reg = .ok reg := by
  unfold register_openai; rw [h]

theorem register_openai_bad (cfg : Config) (env : EnvVars)
    (reg : ProviderRegistry) (k : String) (h : env.openai_api_key = some k)
    (hk : looks_like_openai_key k = false) :
    register_openai cfg env reg =
      .error (.validation ("OPENAI_API_KEY looks invalid: " ++ redact_tail k)) := by
  unfold register_openai validate_openai_key
  rw [h]
  simp [hk]

theorem register_openai_proj_ref (cfg : Config) (env : EnvVars)
    (reg : ProviderRegistry) (k : String) (h : env.openai_api_key = some k)
    (hk : looks_like_openai_key k = true)
    (hp : (is_openai_project_key k && env.openai_project.isNone) = true)
    (hr : is_provider_referenced cfg "openai" = true) :
    register_openai cfg env reg =
      .error (.validation "Project-scoped OpenAI key detected (sk-proj-â€¦). Please set OPENAI_PROJECT=<project_id>.") := by
  unfold register_openai validate_openai_key
  rw [h]
  rw [Bool.and_eq_true] at hp
  simp [hk, hp.1, hp.2, hr]

theorem register_openai_proj_skip (cfg : Config) (env : EnvVars)
    (reg : ProviderRegistry) (k : String) (h : env.openai_api_key = some k)
    (hk : looks_like_openai_key k = true)
    (hp : (is_openai_project_key k && env.openai_project.isNone) = true)
    (hr : is_provider_referenced cfg "openai" = false) :
    register_openai cfg env reg = .ok reg := by
  unfold register_openai validate_openai_key
  rw [h]
  rw [Bool.and_eq_true] at hp
  simp [hk, hp.1, hp.2, hr]

theorem register_openai_good (cfg : Config) (env : EnvVars)
    (reg : ProviderRegistry) (k : String) (h : env.openai_api_key = some k)
    (hk : looks_like_openai_key k = true)
    (hp : (is_openai_project_key k && env.openai_project.isNone) = false) :
    register_openai cfg env reg =
      .ok ⟨reg.chat ++ ["openai"], reg.embed ++ ["openai"]⟩ := by
  unfold register_openai validate_openai_key
  rw [h]
  simp [hk, hp]

theorem register_openrouter_none (env : EnvVars) (reg : ProviderRegistry)
    (h : env.openrouter_api_key = none) :
    register_openrouter env reg = .ok reg := by
  unfold register_openrouter; rw [h]

theorem register_openrouter_bad (env : EnvVars) (reg : ProviderRegistry)
    (k : String) (h : env.openrouter_api_key = some k)
    (hk : looks_like_openrouter_key k = false) :
    register_openrouter env reg =
      .error (.validation ("OPENROUTER_API_KEY looks invalid: " ++ redact_tail k)) := by
  unfold register_openrouter validate_openrouter_key
  rw [h]
  simp [hk]

theorem register_openrouter_good (env : EnvVars) (reg : ProviderRegistry)
    (k : String) (h : env.openrouter_api_key = some k)
    (hk : looks_like_openrouter_key k = true) :
    register_openrouter env reg =
      .ok ⟨reg.chat ++ ["openrouter"], reg.embed ++ ["openrouter"]⟩ := by
  unfold register_openrouter validate_openrouter_key
  rw [h]
  simp [hk]

theorem register_openai_ok_mem (cfg : Config) (env : EnvVars)
    (reg0 r1 : ProviderRegistry) (x : String)
    (h : register_openai cfg env reg0 = .ok r1) :
    (x ∈ r1.chat ↔ x ∈ reg0.chat ∨ (x = "openai" ∧ ∃ k,
        env.openai_api_key = some k ∧ looks_like_openai_key k = true ∧
        (is_openai_project_key k && env.openai_project.isNone) = false)) ∧
    (x ∈ r1.embed ↔ x ∈ reg0.embed ∨ (x = "openai" ∧ ∃ k,
        env.openai_api_key = some k ∧ looks_like_openai_key k = true ∧
        (is_openai_project_key k && env.openai_project.isNone) = false)) := by
  cases hoak : env.openai_api_key with
  | none =>
      rw [register_openai_none cfg env reg0 hoak] at h
      simp only [Except.ok.injEq] at h
      subst h
      simp [hoak]
  | some k1 =>
      by_cases hv : looks_like_openai_key k1
      · by_cases hp : (is_openai_project_key k1 && env.openai_project.isNone) = true
        · by_cases hr : is_provider_referenced cfg "openai" = true
          · rw [register_openai_proj_ref cfg env reg0 k1 hoak hv hp hr] at h
            exact absurd h (by simp)
          · rw [register_openai_proj_skip cfg env reg0 k1 hoak hv hp
                (by simp only [Bool.not_eq_true] at hr; exact hr)] at h
            simp only [Except.ok.injEq] at h
            subst h
            simp only [hoak, Option.some.injEq]
            constructor <;>
              · rw [iff_self_or]
                rintro ⟨hx, k, hk, hkv, hkp⟩
                subst hk
                rw [hp] at hkp
                exact absurd hkp (by simp)
        · rw [register_openai_good cfg env reg0 k1 hoak hv
              (by simp only [Bool.not_eq_true] at hp; exact hp)] at h
          simp only [Except.ok.injEq] at h
          subst h
          simp only [List.mem_append, List.mem_singleton, hoak, Option.some.injEq]
          constructor <;>
            · constructor
              · rintro (hx | hx)
                · exact Or.inl hx
                · exact Or.inr ⟨hx, k1, rfl, hv,
                    by simp only [Bool.not_eq_true] at hp; exact hp⟩
              · rintro (hx | ⟨hx, k, hk, _, _⟩)
                · exact Or.inl hx
                · exact Or.inr hx
      · rw [register_openai_bad cfg env reg0 k1 hoak
            (by simp only [Bool.not_eq_true] at hv; exact hv)] at h
        exact absurd h (by simp)

theorem register_openrouter_ok_mem (env : EnvVars)
    (reg1 r : ProviderRegistry) (x : String)
    (h : register_openrouter env reg1 = .ok r) :
    (x ∈ r.chat ↔ x ∈ reg1.chat ∨ (x = "openrouter" ∧ ∃ k,
        env.openrouter_api_key = some k ∧ looks_like_openrouter_key k = true)) ∧
    (x ∈ r.embed ↔ x ∈ reg1.embed ∨ (x = "openrouter" ∧ ∃ k,
        env.openrouter_api_key = some k ∧ looks_like_openrouter_key k = true)) := by
  cases hork : env.openrouter_api_key with
  | none =>
      rw [register_openrouter_none env reg1 hork] at h
      simp only [Except.ok.injEq] at h
      subst h
      simp [hork]
  | some k2 =>
      by_cases hv : looks_like_openrouter_key k2
      · rw [register_openrouter_good env reg1 k2 hork hv] at h
        simp only [Except.ok.injEq] at h
        subst h
        simp only [List.mem_append, List.mem_singleton, hork, Option.some.injEq]
        constructor <;>
          · constructor
            · rintro (hx | hx)
              · exact Or.inl hx
              · exact Or.inr ⟨hx, k2, rfl, hv⟩
            · rintro (hx | ⟨hx, k, hk, _⟩)
              · exact Or.inl hx
              · exact Or.inr hx
      · rw [register_openrouter_bad env reg1 k2 hork
            (by simp only [Bool.not_eq_true] at hv; exact hv)] at h
        exact absurd h (by simp)

/-- C4 (amended): registry construction always preregisters `null`; it
registers OpenAI exactly when `OPENAI_API_KEY` is set, of valid shape, and
not a project-scoped key lacking `OPENAI_PROJECT` (a referenced
project-scoped key without a project fails construction, an unreferenced
one is silently skipped); it registers OpenRouter exactly when
`OPENROUTER_API_KEY` is set and of valid shape; Anthropic is never
registered, whatever `ANTHROPIC_API_KEY` holds; a missing key environment
variable silently skips registration and an invalid-shape key fails
construction with `Validation`. -/
theorem c4_registry (cfg : Config) (env : EnvVars) :
    (∀ r, from_config cfg env = .ok r →
      ("null" ∈ r.chat ∧ "null" ∈ r.embed) ∧
      ("anthropic" ∉ r.chat ∧ "anthropic" ∉ r.embed) ∧
      ("openai" ∈ r.chat ↔ ∃ k, env.openai_api_key = some k ∧
          looks_like_openai_key k = true ∧
          (is_openai_project_key k && env.openai_project.isNone) = false) ∧
      ("openrouter" ∈ r.chat ↔ ∃ k, env.openrouter_api_key = some k ∧
          looks_like_openrouter_key k = true)) ∧
    (∀ k, env.openai_api_key = some k → looks_like_openai_key k = false →
      from_config cfg env =
        .error (.validation ("OPENAI_API_KEY looks invalid: " ++ redact_tail k))) ∧
    (∀ k r1, register_openai cfg env ⟨["null"], ["null"]⟩ = .ok r1 →
      env.openrouter_api_key = some k → looks_like_openrouter_key k = false →
      from_config cfg env =
        .error (.validation ("OPENROUTER_API_KEY looks invalid: " ++ redact_tail k))) := by
  refine ⟨?_, ?_, ?_⟩
  · intro r h
    unfold from_config at h
    rcases hoa : register_openai cfg env ⟨["null"], ["null"]⟩ with e | r1
    · rw [hoa] at h
      exact absurd h (by simp)
    · rw [hoa] at h
      simp only at h
      have hoam := fun x => register_openai_ok_mem cfg env ⟨["null"], ["null"]⟩ r1 x hoa
      have horm := fun x => register_openrouter_ok_mem env r1 r x h
      refine ⟨⟨?_, ?_⟩, ⟨?_, ?_⟩, ?_, ?_⟩
      · rw [(horm "null").1, (hoam "null").1]; simp
      · rw [(horm "null").2, (hoam "null").2]; simp
      · rw [(horm "anthropic").1, (hoam "anthropic").1]; simp
      · rw [(horm "anthropic").2, (hoam "anthropic").2]; simp
      · rw [(horm "openai").1, (hoam "openai").1]; simp
      · rw [(horm "openrouter").1, (hoam "openrouter").1]; simp
  · intro k hk hbad
    unfold from_config
    rw [register_openai_bad cfg env _ k hk hbad]
  · intro k r1 h1 hk2 hbad
    unfold from_config
    rw [h1]
    simp only
    exact register_openrouter_bad env r1 k hk2 hbad

/-- C4 witness: the registry built with only `ANTHROPIC_API_KEY` set holds
exactly the `null` provider. -/
theorem c4_registry_witness :
    (("null" ∈ (["null"] : List String) ∧ "null" ∈ (["null"] : List String)) ∧
     ("anthropic" ∉ (["null"] : List String) ∧
      "anthropic" ∉ (["null"] : List String)) ∧
     ("openai" ∈ (["null"] : List String) ↔ ∃ k,
        (none : Option String) = some k ∧ looks_like_openai_key k = true ∧
        (is_openai_project_key k && (none : Option String).isNone) = false) ∧
     ("openrouter" ∈ (["null"] : List String) ↔ ∃ k,
        (none : Option String) = some k ∧ looks_like_openrouter_key k = true)) :=
  (c4_registry ⟨⟨"null", []⟩⟩
      ⟨none, none, none, none, none, none, some "sk-ant-key"⟩).1
    ⟨["null"], ["null"]⟩ rfl

/-! ## C2: stream bridge terminal-event invariant -/

/-- C2 (code bug): the bridge guards only against a second `Stop` — after
emitting the terminal `Stop` it keeps consuming lines, so an upstream
content chunk arriving after a `finish_reason` chunk is forwarded as a
`DeltaText` *after* the terminal event.  On the concrete line stream below
the canonical stream is `[Stop(stop), DeltaText "x"]`: a non-terminal event
follows the terminal, contradicting the claim and the contract documented
in stream.rs ("After a terminal event, no further events are emitted"). -/
theorem c2_event_after_terminal :
    chat_stream_events
      [.ok "data: \x7b\"choices\":[\x7b\"finish_reason\":\"stop\"\x7d]\x7d",
       .ok "data: \x7b\"choices\":[\x7b\"delta\":\x7b\"content\":\"x\"\x7d\x7d]\x7d"] =
      [.stop (some .stop), .deltaText "x"] ∧
    StreamEvent.is_terminal (.stop (some .stop)) = true ∧
    StreamEvent.is_terminal (.deltaText "x") = false := by
  exact ⟨rfl, rfl, rfl⟩

/-! ## C9: JSON round-trip -/

theorem rt_string (s : String) : decodeString (encodeString s) = some s := rfl

theorem rt_nat (n : Nat) : decodeNat (encodeNat n) = some n := by
  simp [decodeNat, encodeNat, Rat.den_natCast, Rat.num_natCast]

theorem rt_int (i : Int) : decodeInt (encodeInt i) = some i := by
  simp [decodeInt, encodeInt, Rat.den_intCast, Rat.num_intCast]

theorem rt_rat (x : ℚ) : decodeRat (encodeRat x) = some x := rfl

theorem rt_bool (b : Bool) : decodeBool (.bool b) = some b := rfl

theorem rt_opt_string (o : Option String) :
    decodeOpt decodeString (encodeOpt encodeString o) = some o := by
  cases o <;> rfl

theorem rt_opt_nat (o : Option Nat) :
    decodeOpt decodeNat (encodeOpt encodeNat o) = some o := by
  cases o with
  | none => rfl
  | some n =>
      simp [encodeOpt, encodeNat, decodeOpt, decodeNat,
        Rat.den_natCast, Rat.num_natCast]

theorem rt_opt_rat (o : Option ℚ) :
    decodeOpt decodeRat (encodeOpt encodeRat o) = some o := by
  cases o <;> rfl

theorem rt_role (r : Role) : decodeRole (encodeRole r) = some r := by
  cases r <;> rfl

theorem rt_stop_reason (sr : StopReason) :
    decodeStopReason (encodeStopReason sr) = some sr := by
  cases sr <;> rfl

theorem rt_opt_stop_reason (o : Option StopReason) :
    decodeOpt decodeStopReason (encodeOpt encodeStopReason o) = some o := by
  cases o with
  | none => rfl
  | some sr => cases sr <;> rfl

theorem rt_list {α : Type} (enc : α → Json) (dec : Json → Option α)
    (h : ∀ a, dec (enc a) = some a) (l : List α) :
    decodeList dec (encodeList enc l) = some l := by
  induction l with
  | nil => rfl
  | cons a tl ih =>
      simp only [encodeList, List.map_cons, decodeList, decodeElems, h a,
        Option.bind_eq_bind, Option.some_bind]
      simp only [encodeList, decodeList] at ih
      simp [ih]

theorem rt_chat_message (m : ChatMessage) :
    decodeChatMessage (encodeChatMessage m) = some m := by
  obtain ⟨r, c⟩ := m
  cases r <;> rfl

theorem rt_list_string (l : List String) :
    decodeList decodeString (encodeList encodeString l) = some l :=
  rt_list encodeString decodeString rt_string l

theorem rt_opt_list_string (o : Option (List String)) :
    decodeOpt (decodeList decodeString)
      (encodeOpt (encodeList encodeString) o) = some o := by
  cases o with
  | none => rfl
  | some l =>
      have h := rt_list_string l
      simp only [encodeList, decodeList] at h
      simp [encodeOpt, encodeList, decodeOpt, decodeList, h]

theorem rt_chat_request (x : ChatRequest) (hx : x.metadata ≠ some Json.null) :
    decodeChatRequest (encodeChatRequest x) = some x := by
  obtain ⟨mo, ms, te, tp, md, ck, ri, ti, ik, mx, ss⟩ := x
  simp only [ChatRequest.metadata, ne_eq] at hx
  simp only [encodeChatRequest, decodeChatRequest, getField, getOptField, jsonField,
    List.find?]
  simp [rt_string, rt_opt_rat, rt_opt_string, rt_opt_nat, rt_opt_list_string,
    rt_list encodeChatMessage decodeChatMessage rt_chat_message]
  rcases md with _ | v
  · simp [encodeMeta, decodeMeta]
  · cases v <;> simp_all [encodeMeta, decodeMeta]

theorem rt_chat_response (y : ChatResponse) :
    decodeChatResponse (encodeChatResponse y) = some y := by
  obtain ⟨mo, tx, up, uc, ca, pr, tr, tu, sr, pi, cr, la⟩ := y
  simp only [encodeChatResponse, decodeChatResponse, getField, getOptField, jsonField,
    List.find?]
  simp [rt_string, rt_nat, rt_int, rt_bool, rt_opt_string, rt_opt_stop_reason]

theorem rt_embed_request (z : EmbedRequest) :
    decodeEmbedRequest (encodeEmbedRequest z) = some z := by
  obtain ⟨mo, inp, ck⟩ := z
  simp only [encodeEmbedRequest, decodeEmbedRequest, getField, getOptField, jsonField,
    List.find?]
  simp [rt_string, rt_list_string, rt_opt_string]

theorem rt_embed_response (w : EmbedResponse) :
    decodeEmbedResponse (encodeEmbedResponse w) = some w := by
  obtain ⟨mo, ve, us, ca, pr⟩ := w
  simp only [encodeEmbedResponse, decodeEmbedResponse, getField, getOptField, jsonField,
    List.find?]
  simp [rt_string, rt_nat, rt_bool,
    rt_list (encodeList encodeRat) (decodeList decodeRat)
      (rt_list encodeRat decodeRat rt_rat)]

/-- C9 counterexample: the derived serialization sends `None` as `null` and
`Some(Value::Null)` also as `null`, and deserialization maps `null` back to
`None` — so a `ChatRequest` whose `metadata` is `Some(Value::Null)` does
not round-trip: it comes back with `metadata = None`. -/
theorem c9_counterexample :
    decodeChatRequest (encodeChatRequest
      ⟨"m", [], none, none, some Json.null, none, none, none, none, none, none⟩) ≠
    some (⟨"m", [], none, none, some Json.null, none, none, none, none, none,
      none⟩ : ChatRequest) := by
  intro h
  have h1 : decodeChatRequest (encodeChatRequest
      ⟨"m", [], none, none, some Json.null, none, none, none, none, none, none⟩) =
      some (⟨"m", [], none, none, none, none, none, none, none, none,
        none⟩ : ChatRequest) := by rfl
  rw [h1] at h
  have h2 := congrArg (fun o => Option.map ChatRequest.metadata o) h
  simp at h2

/-- C9 (amended): JSON serialization round-trips for every canonical value
of `ChatResponse`, `EmbedRequest`, `EmbedResponse`, `Role` (serialized
lower-case) and `StopReason` (serialized snake_case), and for every
`ChatRequest` whose `metadata` is not `Some(Value::Null)` (that single
degenerate value collapses to `None`, see the counterexample). -/
theorem c9_roundtrip (x : ChatRequest) (y : ChatResponse) (z : EmbedRequest)
    (w : EmbedResponse) (ro : Role) (sr : StopReason)
    (hx : x.metadata ≠ some Json.null) :
    decodeChatRequest (encodeChatRequest x) = some x ∧
    decodeChatResponse (encodeChatResponse y) = some y ∧
    decodeEmbedRequest (encodeEmbedRequest z) = some z ∧
    decodeEmbedResponse (encodeEmbedResponse w) = some w ∧
    decodeRole (encodeRole ro) = some ro ∧
    decodeStopReason (encodeStopReason sr) = some sr ∧
    (encodeRole .system = .str "system" ∧ encodeRole .user = .str "user" ∧
     encodeRole .assistant = .str "assistant" ∧ encodeRole .tool = .str "tool") ∧
    (encodeStopReason .stop = .str "stop" ∧
     encodeStopReason .length = .str "length" ∧
     encodeStopReason .toolUse = .str "tool_use" ∧
     encodeStopReason .endTurn = .str "end_turn" ∧
     encodeStopReason .contentFilter = .str "content_filter" ∧
     encodeStopReason .other = .str "other") :=
  ⟨rt_chat_request x hx, rt_chat_response y, rt_embed_request z,
   rt_embed_response w, rt_role ro, rt_stop_reason sr,
   ⟨rfl, rfl, rfl, rfl⟩, ⟨rfl, rfl, rfl, rfl, rfl, rfl⟩⟩

/-- C9 witness: the round-trip at a concrete request carrying every
optional field. -/
theorem c9_roundtrip_witness :
    decodeChatRequest (encodeChatRequest
      ⟨"gpt-4o", [⟨Role.user, "Hello"⟩], some (7/10), some (9/10),
       some (Json.obj [("k", Json.str "v")]), some "ck", some "rid",
       some "tid", some "ik", some 256, some ["a", "b"]⟩) =
      some (⟨"gpt-4o", [⟨Role.user, "Hello"⟩], some (7/10), some (9/10),
        some (Json.obj [("k", Json.str "v")]), some "ck", some "rid",
        some "tid", some "ik", some 256, some ["a", "b"]⟩ : ChatRequest) :=
  (c9_roundtrip
    ⟨"gpt-4o", [⟨Role.user, "Hello"⟩], some (7/10), some (9/10),
     some (Json.obj [("k", Json.str "v")]), some "ck", some "rid",
     some "tid", some "ik", some 256, some ["a", "b"]⟩
    ⟨"m", "t", 1, 2, false, "p", none, "turn", none, none, 3, 4⟩
    ⟨"m", ["a"], none⟩ ⟨"m", [[1]], 0, false, "p"⟩ Role.user StopReason.stop
    (by simp)).1


/-! ## C5: normalizer idempotence -/

theorem replaceCrlf_of_no_cr (l : List Char) (h : '\r' ∉ l) :
    replaceCrlf l = l := by
  induction l with
  | nil => rfl
  | cons c tl ih =>
      have hc : c ≠ '\r' := fun hcc => h (hcc ▸ List.mem_cons_self c tl)
      have htl : '\r' ∉ tl := fun hm => h (List.mem_cons_of_mem c hm)
      have ih2 := ih htl
      unfold replaceCrlf
      split <;> simp_all

theorem dropWhile_idem (p : α → Bool) (l : List α) :
    (l.dropWhile p).dropWhile p = l.dropWhile p := by
  induction l with
  | nil => rfl
  | cons a tl ih => by_cases h : p a <;> simp [List.dropWhile_cons, h, ih]

theorem mem_rustTrimL (l : List Char) (a : Char) (h : a ∈ rustTrimL l) :
    a ∈ l := by
  unfold rustTrimL at h
  rw [List.mem_reverse] at h
  have h2 := (List.dropWhile_suffix rust_is_whitespace).mem h
  rw [List.mem_reverse] at h2
  exact (List.dropWhile_suffix rust_is_whitespace).mem h2

theorem dropWhile_eq_self_of_stable (p : α → Bool) (A Y : List α)
    (hA : A.dropWhile p = A) (hpre : Y <+: A) : Y.dropWhile p = Y := by
  cases Y with
  | nil => rfl
  | cons y ytl =>
      obtain ⟨t, ht⟩ := hpre
      have hy : p y = false := by
        by_contra hpy
        rw [Bool.not_eq_false] at hpy
        rw [← ht, List.cons_append, List.dropWhile_cons] at hA
        rw [hpy] at hA
        simp only [if_true] at hA
        have hlen : (List.dropWhile p (ytl ++ t)).length =
            (ytl ++ t).length + 1 := by
          rw [hA]; simp
        have hle := (List.dropWhile_sublist (l := ytl ++ t) (p := p)).length_le
        omega
      rw [List.dropWhile_cons, hy]
      simp

theorem rustTrimL_dropWhile (l : List Char) :
    (rustTrimL l).dropWhile rust_is_whitespace = rustTrimL l := by
  have hA : (l.dropWhile rust_is_whitespace).dropWhile rust_is_whitespace =
      l.dropWhile rust_is_whitespace := dropWhile_idem _ l
  apply dropWhile_eq_self_of_stable rust_is_whitespace (l.dropWhile rust_is_whitespace)
  · exact hA
  · unfold rustTrimL
    have hs : ((l.dropWhile rust_is_whitespace).reverse.dropWhile rust_is_whitespace)
        <:+ (l.dropWhile rust_is_whitespace).reverse :=
      List.dropWhile_suffix rust_is_whitespace
    have := List.reverse_prefix.mpr hs
    simpa using this

theorem rustTrimL_idem (l : List Char) : rustTrimL (rustTrimL l) = rustTrimL l := by
  have h1 : rustTrimL (rustTrimL l) =
      ((rustTrimL l).reverse.dropWhile rust_is_whitespace).reverse := by
    show (((rustTrimL l).dropWhile
        rust_is_whitespace).reverse.dropWhile rust_is_whitespace).reverse = _
    rw [rustTrimL_dropWhile]
  have h2 : (rustTrimL l).reverse =
      (l.dropWhile rust_is_whitespace).reverse.dropWhile rust_is_whitespace := by
    unfold rustTrimL
    rw [List.reverse_reverse]
  rw [h1, h2, dropWhile_idem]
  unfold rustTrimL
  rfl

theorem clean_text_eq_trim (t : String) (ht1 : '\uFEFF' ∉ t.data)
    (ht2 : '\r' ∉ t.data) : clean_text t = String.mk (rustTrimL t.data) := by
  show String.mk (rustTrimL (replaceCrlf (match nfcModel t.data with
    | c :: rest => if c = '\uFEFF' then rest else c :: rest
    | [] => []))) = _
  have hbom : (match nfcModel t.data with
      | c :: rest => if c = '\uFEFF' then rest else c :: rest
      | [] => []) = t.data := by
    show (match t.data with
      | c :: rest => if c = '\uFEFF' then rest else c :: rest
      | [] => []) = t.data
    cases hd : t.data with
    | nil => rfl
    | cons c rest =>
        have hc : c ≠ '\uFEFF' := by
          intro hcc
          exact ht1 (hd ▸ hcc ▸ List.mem_cons_self c rest)
        simp [hc]
  rw [hbom, replaceCrlf_of_no_cr t.data ht2]

theorem clean_text_fix (s : String) (h1 : '\uFEFF' ∉ s.data)
    (h2 : '\r' ∉ s.data) : clean_text (clean_text s) = clean_text s := by
  rw [clean_text_eq_trim s h1 h2]
  have h1' : '\uFEFF' ∉ (String.mk (rustTrimL s.data)).data := by
    intro h
    exact h1 (mem_rustTrimL s.data _ h)
  have h2' : '\r' ∉ (String.mk (rustTrimL s.data)).data := by
    intro h
    exact h2 (mem_rustTrimL s.data _ h)
  rw [clean_text_eq_trim (String.mk (rustTrimL s.data)) h1' h2']
  show String.mk (rustTrimL (rustTrimL s.data)) = String.mk (rustTrimL s.data)
  rw [rustTrimL_idem]

theorem round_mono_q (x y : ℚ) (h : x ≤ y) : round x ≤ round y := by
  rw [round_eq, round_eq]
  exact Int.floor_mono (by linarith)

theorem clamp_round_mem (x hi : ℚ) (dp : Nat) (hhi : 0 ≤ hi)
    (n : ℤ) (hn : hi * 10 ^ dp = (n : ℚ)) :
    0 ≤ clamp_round_f32 x 0 hi dp ∧ clamp_round_f32 x 0 hi dp ≤ hi := by
  have hp : (0:ℚ) < 10 ^ dp := by positivity
  set c := min (max x 0) hi with hc
  have hc0 : 0 ≤ c := le_min (le_max_right x 0) hhi
  have hchi : c ≤ hi := min_le_right _ _
  have hr0 : (0:ℤ) ≤ round (c * 10 ^ dp) := by
    have := round_mono_q 0 (c * 10 ^ dp) (by positivity)
    simpa using this
  have hrn : round (c * 10 ^ dp) ≤ n := by
    have h1 : c * 10 ^ dp ≤ (n : ℚ) := by
      rw [← hn]
      exact mul_le_mul_of_nonneg_right hchi (le_of_lt hp)
    have := round_mono_q (c * 10 ^ dp) ((n : ℚ)) h1
    simpa [round_intCast] using this
  constructor
  · show 0 ≤ ((round (c * 10 ^ dp) : ℤ) : ℚ) / 10 ^ dp
    apply div_nonneg _ (le_of_lt hp)
    exact_mod_cast hr0
  · show ((round (c * 10 ^ dp) : ℤ) : ℚ) / 10 ^ dp ≤ hi
    rw [div_le_iff hp, hn]
    exact_mod_cast hrn

theorem clamp_round_fix (x hi : ℚ) (dp : Nat) (hhi : 0 ≤ hi)
    (n : ℤ) (hn : hi * 10 ^ dp = (n : ℚ)) :
    clamp_round_f32 (clamp_round_f32 x 0 hi dp) 0 hi dp =
      clamp_round_f32 x 0 hi dp := by
  obtain ⟨hy0, hyhi⟩ := clamp_round_mem x hi dp hhi n hn
  set y := clamp_round_f32 x 0 hi dp with hy
  have hp : (0:ℚ) < 10 ^ dp := by positivity
  have hclamp : min (max y 0) hi = y := by
    rw [max_eq_left hy0, min_eq_left hyhi]
  show ((round (min (max y 0) hi * 10 ^ dp) : ℤ) : ℚ) / 10 ^ dp = y
  rw [hclamp]
  have hyp : y * 10 ^ dp =
      ((round (min (max x 0) hi * 10 ^ dp) : ℤ) : ℚ) := by
    rw [hy]
    show ((round (min (max x 0) hi * 10 ^ dp) : ℤ) : ℚ) / 10 ^ dp * 10 ^ dp = _
    field_simp
  rw [hyp, round_intCast, ← hyp]
  field_simp

theorem clamp_round_one (hi : ℚ) (dp : Nat) (h1 : 1 ≤ hi) :
    clamp_round_f32 1 0 hi dp = 1 := by
  show ((round (min (max 1 0) hi * 10 ^ dp) : ℤ) : ℚ) / 10 ^ dp = 1
  have hp : (0:ℚ) < 10 ^ dp := by positivity
  have hm : min (max (1:ℚ) 0) hi = 1 := by
    rw [max_eq_left (by norm_num), min_eq_left h1]
  rw [hm, one_mul]
  have : ((10:ℚ) ^ dp) = (((10:ℤ) ^ dp : ℤ) : ℚ) := by push_cast; ring
  rw [this, round_intCast]
  field_simp

theorem vecDedup_sublist (l : List String) : (vecDedup l).Sublist l := by
  induction l with
  | nil => simp [vecDedup]
  | cons a tl ih =>
      cases tl with
      | nil => simp [vecDedup]
      | cons b tl2 =>
          unfold vecDedup
          split
          · exact List.Sublist.cons a ih
          · exact List.Sublist.cons₂ a ih

theorem vecDedup_head (b : String) (tl : List String) :
    (vecDedup (b :: tl)).head? = some b := by
  induction tl generalizing b with
  | nil => rfl
  | cons c tl2 ih =>
      unfold vecDedup
      split
      · rename_i h
        rw [h, ih c]
      · simp

theorem vecDedup_chain' (l : List String) : (vecDedup l).Chain' (· ≠ ·) := by
  induction l with
  | nil => simp [vecDedup]
  | cons a tl ih =>
      cases tl with
      | nil => simp [vecDedup]
      | cons b tl2 =>
          unfold vecDedup
          split
          · exact ih
          · rename_i hab
            rw [List.chain'_cons']
            refine ⟨?_, ih⟩
            intro y hy
            rw [vecDedup_head, Option.mem_def, Option.some.injEq] at hy
            subst hy
            exact hab

theorem vecDedup_eq_self (l : List String) (h : l.Chain' (· ≠ ·)) :
    vecDedup l = l := by
  induction l with
  | nil => rfl
  | cons a tl ih =>
      cases tl with
      | nil => rfl
      | cons b tl2 =>
          rw [List.chain'_cons] at h
          unfold vecDedup
          split
          · exact absurd (by assumption) h.1
          · rw [ih h.2]

theorem mem_dedupFirstGo (seen l : List String) (a : String)
    (h : a ∈ dedupFirstGo seen l) : a ∈ l ∧ a ∉ seen := by
  induction l generalizing seen with
  | nil => simp [dedupFirstGo] at h
  | cons x tl ih =>
      unfold dedupFirstGo at h
      split at h
      · have := ih seen h
        exact ⟨List.mem_cons_of_mem x this.1, this.2⟩
      · rcases List.mem_cons.mp h with heq | hmem
        · subst heq
          exact ⟨List.mem_cons_self a tl, by assumption⟩
        · have := ih (x :: seen) hmem
          refine ⟨List.mem_cons_of_mem x this.1, ?_⟩
          intro hs
          exact this.2 (List.mem_cons_of_mem x hs)

theorem dedupFirstGo_nodup (seen l : List String) :
    (dedupFirstGo seen l).Nodup := by
  induction l generalizing seen with
  | nil => simp [dedupFirstGo]
  | cons x tl ih =>
      unfold dedupFirstGo
      split
      · exact ih seen
      · rw [List.nodup_cons]
        refine ⟨?_, ih (x :: seen)⟩
        intro hmem
        exact (mem_dedupFirstGo (x :: seen) tl x hmem).2 (List.mem_cons_self x seen)

theorem dedupFirstGo_eq_self (seen l : List String) (hnd : l.Nodup)
    (hdisj : ∀ x ∈ l, x ∉ seen) : dedupFirstGo seen l = l := by
  induction l generalizing seen with
  | nil => rfl
  | cons x tl ih =>
      rw [List.nodup_cons] at hnd
      unfold dedupFirstGo
      split
      · exact absurd (by assumption) (hdisj x (List.mem_cons_self x tl))
      · rw [ih (x :: seen) hnd.2]
        intro y hy
        rw [List.mem_cons]
        rintro (heq | hmem)
        · exact hnd.1 (heq ▸ hy)
        · exact hdisj y (List.mem_cons_of_mem x hy) hmem

/-- C5 counterexample: `clean_text` strips only one leading BOM per
application, so a message content starting with two BOMs (U+FEFF U+FEFF x)
normalizes to one BOM plus `x`, and normalizing again strips the second
BOM — `normalize_chat (normalize_chat r) ≠ normalize_chat r`. -/
theorem c5_counterexample :
    normalize_chat (normalize_chat
      ⟨"m", [⟨Role.user, "\uFEFF\uFEFFx"⟩], none, none, none, none, none,
       none, none, none, none⟩) ≠
    normalize_chat
      ⟨"m", [⟨Role.user, "\uFEFF\uFEFFx"⟩], none, none, none, none, none,
       none, none, none, none⟩ := by
  intro h
  have h2 := congrArg ChatRequest.messages h
  exact absurd h2 (by decide)

/-- C5 (amended): `normalize_chat` and `normalize_embed` are idempotent on
every request whose message contents (respectively embedding inputs)
contain no U+FEFF and no carriage return — the numeric clamping/rounding,
stop-sequence sort/dedup, token cap and embedding dedup are
unconditionally idempotent, and the text cleansing is idempotent exactly
on such contents (a second leading BOM or a bare `\r` ahead of a `\r\n`
breaks it, see the counterexample). -/
theorem c5_normalize_idempotent (req : ChatRequest) (ereq : EmbedRequest)
    (hchat : ∀ m ∈ req.messages, '\uFEFF' ∉ m.content.data ∧ '\r' ∉ m.content.data)
    (hembed : ∀ s ∈ ereq.inputs, '\uFEFF' ∉ s.data ∧ '\r' ∉ s.data) :
    normalize_chat (normalize_chat req) = normalize_chat req ∧
    normalize_embed (normalize_embed ereq) = normalize_embed ereq := by
  constructor
  · obtain ⟨mo, ms, te, tp, md, ck, ri, ti, ik, mx, ss⟩ := req
    simp only [normalize_chat, ChatRequest.mk.injEq]
    refine ⟨trivial, ?_, ?_, ?_, trivial, trivial, trivial, trivial, trivial, ?_, ?_⟩
    · rw [List.map_map]
      apply List.map_congr_left
      intro m hm
      obtain ⟨r, c⟩ := m
      simp only [Function.comp_apply, ChatMessage.mk.injEq, true_and]
      exact clean_text_fix c (hchat ⟨r, c⟩ hm).1 (hchat ⟨r, c⟩ hm).2
    · cases te with
      | none =>
          simp only [Option.some.injEq]
          exact clamp_round_one 2 3 (by norm_num)
      | some t =>
          simp only [Option.some.injEq]
          exact clamp_round_fix t 2 3 (by norm_num) 2000 (by norm_num)
    · cases tp with
      | none =>
          simp only [Option.some.injEq]
          exact clamp_round_one 1 4 (by norm_num)
      | some t =>
          simp only [Option.some.injEq]
          exact clamp_round_fix t 1 4 (by norm_num) 10000 (by norm_num)
    · cases mx with
      | none => rfl
      | some m =>
          by_cases hm : m > 100000
          · simp [hm]
          · simp [hm]
    · cases ss with
      | none => rfl
      | some stops =>
          by_cases hs2 : vecDedup (rustSortStrings stops) = []
          · simp [hs2]
          · simp only [hs2, if_false]
            have hsorted : (vecDedup (rustSortStrings stops)).Sorted (fun a b => a ≤ b) :=
              (List.sorted_insertionSort _ stops).sublist (vecDedup_sublist _)
            have hsort2 : rustSortStrings (vecDedup (rustSortStrings stops)) =
                vecDedup (rustSortStrings stops) :=
              List.Sorted.insertionSort_eq hsorted
            have hded2 : vecDedup (vecDedup (rustSortStrings stops)) =
                vecDedup (rustSortStrings stops) :=
              vecDedup_eq_self _ (vecDedup_chain' _)
            rw [hsort2, hded2]
            simp [hs2]
  · obtain ⟨emo, inputs, eck⟩ := ereq
    simp only [normalize_embed, EmbedRequest.mk.injEq]
    refine ⟨trivial, ?_, trivial⟩
    set l1 := dedupFirstGo []
      ((inputs.map clean_text).filter (fun s => s ≠ "")) with hl1
    have hfix : ∀ x ∈ l1, clean_text x = x := by
      intro x hx
      have h1 := (mem_dedupFirstGo _ _ x hx).1
      rw [List.mem_filter] at h1
      obtain ⟨orig, horig, heq⟩ := List.mem_map.mp h1.1
      subst heq
      exact clean_text_fix orig (hembed orig horig).1 (hembed orig horig).2
    have hmap : l1.map clean_text = l1 := by
      have := List.map_congr_left (f := clean_text) (g := id) hfix
      rwa [List.map_id] at this
    have hne : ∀ x ∈ l1.map clean_text, (x ≠ "" : Bool) := by
      rw [hmap]
      intro x hx
      have h1 := (mem_dedupFirstGo _ _ x hx).1
      rw [List.mem_filter] at h1
      exact h1.2
    rw [hmap] at hne
    rw [hmap, List.filter_eq_self.mpr hne]
    exact dedupFirstGo_eq_self [] l1 (dedupFirstGo_nodup _ _) (by simp)

/-- C5 witness: idempotence at a concrete request with clean contents. -/
theorem c5_normalize_idempotent_witness :
    normalize_chat (normalize_chat
      ⟨"gpt-4o", [⟨Role.user, "  Hello world "⟩], some (7/10), none, none,
       none, none, none, none, some 200000, some ["END", "END", "STOP"]⟩) =
    normalize_chat
      ⟨"gpt-4o", [⟨Role.user, "  Hello world "⟩], some (7/10), none, none,
       none, none, none, none, some 200000, some ["END", "END", "STOP"]⟩ ∧
    normalize_embed (normalize_embed ⟨"e", ["  one ", "", "one"], none⟩) =
    normalize_embed ⟨"e", ["  one ", "", "one"], none⟩ :=
  c5_normalize_idempotent
    ⟨"gpt-4o", [⟨Role.user, "  Hello world "⟩], some (7/10), none, none,
     none, none, none, none, some 200000, some ["END", "END", "STOP"]⟩
    ⟨"e", ["  one ", "", "one"], none⟩ (by decide) (by decide)

/-! ## C8: SSE line framing -/

theorem dropWhile_head_false (p : α → Bool) (l : List α) (b : α) (l2 : List α)
    (h : l.dropWhile p = b :: l2) : p b = false := by
  induction l with
  | nil => simp at h
  | cons a tl ih =>
      rw [List.dropWhile_cons] at h
      split at h
      · exact ih h
      · rename_i hpa
        rw [Bool.not_eq_true] at hpa
        cases h
        exact hpa

theorem takeWhile_append_all (p : α → Bool) (a l : List α)
    (h : ∀ x ∈ a, p x = true) :
    (a ++ l).takeWhile p = a ++ l.takeWhile p := by
  induction a with
  | nil => simp
  | cons x tl ih =>
      rw [List.cons_append, List.takeWhile_cons, h x (List.mem_cons_self x tl)]
      simp only [if_true, List.cons_append, List.cons.injEq, true_and]
      exact ih (fun y hy => h y (List.mem_cons_of_mem x hy))

theorem dropWhile_append_all (p : α → Bool) (a l : List α)
    (h : ∀ x ∈ a, p x = true) :
    (a ++ l).dropWhile p = l.dropWhile p := by
  induction a with
  | nil => simp
  | cons x tl ih =>
      rw [List.cons_append, List.dropWhile_cons, h x (List.mem_cons_self x tl)]
      simp only [if_true]
      exact ih (fun y hy => h y (List.mem_cons_of_mem x hy))

theorem utf8Len_append (a b : List Char) :
    utf8Len (a ++ b) = utf8Len a + utf8Len b := by
  simp [utf8Len, List.map_append]

theorem sse_frame_cons_of (s : List Char) (b : Char) (l2 : List Char)
    (h : s.dropWhile (fun c => c ≠ '\n') = b :: l2) :
    sse_frame s = trim_cr (s.takeWhile (fun c => c ≠ '\n')) :: sse_frame l2 := by
  rw [sse_frame.eq_def]
  split
  · rename_i b' l2' h'
    rw [h] at h'
    cases h'
    rfl
  · rename_i h'
    rw [h] at h'
    cases h'

theorem sse_frame_nil_of (s : List Char)
    (h : s.dropWhile (fun c => c ≠ '\n') = []) :
    sse_frame s = if s = [] then [] else [s] := by
  rw [sse_frame.eq_def]
  split
  · rename_i b' l2' h'
    rw [h] at h'
    cases h'
  · rfl

theorem drainLines_cons_of (buf : List Char) (b : Char) (rest : List Char)
    (h : buf.dropWhile (fun c => c ≠ '\n') = b :: rest) :
    drainLines buf =
      (trim_cr (buf.takeWhile (fun c => c ≠ '\n')) :: (drainLines rest).1,
       (drainLines rest).2) := by
  rw [drainLines.eq_def]
  split
  · rename_i b' rest' h'
    rw [h] at h'
    cases h'
    rfl
  · rename_i h'
    rw [h] at h'
    cases h'

theorem drainLines_nil_of (buf : List Char)
    (h : buf.dropWhile (fun c => c ≠ '\n') = []) :
    drainLines buf = ([], buf) := by
  rw [drainLines.eq_def]
  split
  · rename_i b' rest' h'
    rw [h] at h'
    cases h'
  · rfl

theorem sse_frame_decomp (buf X : List Char) :
    sse_frame (buf ++ X) =
      (drainLines buf).1 ++ sse_frame ((drainLines buf).2 ++ X) := by
  cases hnl : buf.dropWhile (fun c => c ≠ '\n') with
  | cons b rest =>
      have hb := dropWhile_head_false (fun c => c ≠ '\n') buf b rest hnl
      have hsplit : buf.takeWhile (fun c => c ≠ '\n') ++ (b :: rest) = buf := by
        rw [← hnl]
        exact List.takeWhile_append_dropWhile _ _
      have hlen : rest.length < buf.length := by
        have := congrArg List.length hsplit
        simp at this
        omega
      have hdw : (buf ++ X).dropWhile (fun c => c ≠ '\n') = b :: (rest ++ X) := by
        conv_lhs => rw [← hsplit]
        rw [List.append_assoc, List.cons_append,
          dropWhile_append_all _ _ _ (fun x hx => List.mem_takeWhile_imp (p := fun c => c ≠ '\n') hx),
          List.dropWhile_cons, hb]
        simp
      have htw : (buf ++ X).takeWhile (fun c => c ≠ '\n') =
          buf.takeWhile (fun c => c ≠ '\n') := by
        conv_lhs => rw [← hsplit]
        rw [List.append_assoc, List.cons_append,
          takeWhile_append_all _ _ _ (fun x hx => List.mem_takeWhile_imp (p := fun c => c ≠ '\n') hx),
          List.takeWhile_cons, hb]
        simp
      rw [sse_frame_cons_of (buf ++ X) b (rest ++ X) hdw, htw,
        drainLines_cons_of buf b rest hnl, sse_frame_decomp rest X]
      simp
  | nil =>
      rw [drainLines_nil_of buf hnl]
      simp
termination_by buf.length

theorem drain_snd_no_newline (buf : List Char) :
    ((drainLines buf).2).dropWhile (fun c => c ≠ '\n') = [] := by
  cases hnl : buf.dropWhile (fun c => c ≠ '\n') with
  | cons b rest =>
      have hsplit : buf.takeWhile (fun c => c ≠ '\n') ++ (b :: rest) = buf := by
        rw [← hnl]
        exact List.takeWhile_append_dropWhile _ _
      have hlen : rest.length < buf.length := by
        have := congrArg List.length hsplit
        simp at this
        omega
      rw [drainLines_cons_of buf b rest hnl]
      exact drain_snd_no_newline rest
  | nil =>
      rw [drainLines_nil_of buf hnl]
      exact hnl
termination_by buf.length

theorem utf8Len_drain_snd_le (buf : List Char) :
    utf8Len (drainLines buf).2 ≤ utf8Len buf := by
  cases hnl : buf.dropWhile (fun c => c ≠ '\n') with
  | cons b rest =>
      have hsplit : buf.takeWhile (fun c => c ≠ '\n') ++ (b :: rest) = buf := by
        rw [← hnl]
        exact List.takeWhile_append_dropWhile _ _
      have hlen : rest.length < buf.length := by
        have := congrArg List.length hsplit
        simp at this
        omega
      rw [drainLines_cons_of buf b rest hnl]
      have h1 := utf8Len_drain_snd_le rest
      have h2 : utf8Len rest ≤ utf8Len buf := by
        rw [← hsplit, utf8Len_append]
        simp [utf8Len]
        omega
      exact Nat.le_trans h1 h2
  | nil =>
      rw [drainLines_nil_of buf hnl]
termination_by buf.length

theorem lineGo_frames (chunks : List (Except Unit (List Char)))
    (buf : List Char) (hok : ∀ c ∈ chunks, c.isOk = true)
    (hsz : utf8Len (buf ++ chunkConcat chunks) ≤ MAX_SSE_BUFFER) :
    lineGo chunks buf false =
      (sse_frame (buf ++ chunkConcat chunks)).map Except.ok := by
  induction chunks generalizing buf with
  | nil =>
      have hred : lineGo [] buf false =
          (drainLines buf).1.map Except.ok ++
            (if (decide (false = false) && decide ((drainLines buf).2 ≠ [])) = true
             then [Except.ok (drainLines buf).2] else []) := rfl
      rw [hred, show chunkConcat [] = [] from rfl, sse_frame_decomp buf [],
        sse_frame_nil_of ((drainLines buf).2 ++ [])
          (by rw [List.append_nil]; exact drain_snd_no_newline buf)]
      by_cases hb : (drainLines buf).2 = [] <;> simp [hb]
  | cons c0 tl ih =>
      cases c0 with
      | error e =>
          have := hok (.error e) (List.mem_cons_self _ _)
          simp [Except.isOk, Except.toBool] at this
      | ok c =>
          have hT : chunkConcat (.ok c :: tl) = c ++ chunkConcat tl := by
            simp [chunkConcat]
          have hguard : ¬ MAX_SSE_BUFFER < utf8Len ((drainLines buf).2 ++ c) := by
            have h1 := utf8Len_drain_snd_le buf
            have h2 : utf8Len (buf ++ chunkConcat (.ok c :: tl)) =
                utf8Len buf + utf8Len c + utf8Len (chunkConcat tl) := by
              rw [hT, utf8Len_append, utf8Len_append]
              ring
            rw [utf8Len_append]
            omega
          have hred : lineGo (.ok c :: tl) buf false =
              (drainLines buf).1.map Except.ok ++
                (if MAX_SSE_BUFFER < utf8Len ((drainLines buf).2 ++ c)
                 then [Except.error sseOverflowError]
                 else lineGo tl ((drainLines buf).2 ++ c) false) := rfl
          rw [hred, if_neg hguard]
          have ihres := ih ((drainLines buf).2 ++ c)
            (fun x hx => hok x (List.mem_cons_of_mem _ hx))
            (by
              have h1 := utf8Len_drain_snd_le buf
              have h2 : utf8Len (buf ++ chunkConcat (.ok c :: tl)) =
                  utf8Len buf + utf8Len c + utf8Len (chunkConcat tl) := by
                rw [hT, utf8Len_append, utf8Len_append]
                ring
              rw [utf8Len_append, utf8Len_append]
              omega)
          rw [ihres, hT, sse_frame_decomp buf (c ++ chunkConcat tl)]
          simp [List.map_append, List.append_assoc]

theorem utf8Len_replicate (n : Nat) (ch : Char) :
    utf8Len (List.replicate n ch) = n * ch.utf8Size := by
  induction n with
  | zero => simp [utf8Len]
  | succ m ih =>
      rw [List.replicate_succ]
      simp only [utf8Len, List.map_cons, List.sum_cons]
      simp only [utf8Len] at ih
      rw [ih]
      ring

/-- C8: the SSE byte stream is framed into lines split on `\n` with a
single trailing `\r` trimmed before the `\n`, and a non-empty unterminated
tail is flushed exactly once as a final line (`sse_frame` states exactly
this framing): over any error-free chunk sequence whose total byte size
fits the guard, the emitted items are exactly the frames of the
concatenated bytes.  Whenever appending a chunk makes the newline-free
running buffer exceed the 2 MiB guard, the stream terminates with
`ProviderError{code="sse_buffer_overflow"}`; in particular a single
newline-free chunk larger than the guard makes that error the first
emitted item. -/
theorem c8_line_framing (chunks : List (Except Unit (List Char)))
    (c : List Char) :
    ((∀ x ∈ chunks, x.isOk = true) →
      utf8Len (chunkConcat chunks) ≤ MAX_SSE_BUFFER →
      lineStream chunks = (sse_frame (chunkConcat chunks)).map Except.ok) ∧
    (∀ (buf : List Char) (tl : List (Except Unit (List Char))),
      '\n' ∉ buf → MAX_SSE_BUFFER < utf8Len (buf ++ c) →
      lineGo (.ok c :: tl) buf false = [.error sseOverflowError]) ∧
    ('\n' ∉ c → MAX_SSE_BUFFER < utf8Len c →
      lineStream [.ok c] = [.error sseOverflowError]) := by
  have overflow : ∀ (buf : List Char) (tl : List (Except Unit (List Char))),
      '\n' ∉ buf → MAX_SSE_BUFFER < utf8Len (buf ++ c) →
      lineGo (.ok c :: tl) buf false = [.error sseOverflowError] := by
    intro buf tl hnb hsz
    have hd : drainLines buf = ([], buf) :=
      drainLines_nil_of buf (List.dropWhile_eq_nil_iff.mpr
        (fun x hx => by
          simp only [ne_eq, decide_eq_true_eq]
          intro heq
          exact hnb (heq ▸ hx)))
    have hred : lineGo (.ok c :: tl) buf false =
        (drainLines buf).1.map Except.ok ++
          (if MAX_SSE_BUFFER < utf8Len ((drainLines buf).2 ++ c)
           then [Except.error sseOverflowError]
           else lineGo tl ((drainLines buf).2 ++ c) false) := rfl
    rw [hred, hd]
    simp [hsz]
  refine ⟨?_, overflow, ?_⟩
  · intro hok hsz
    unfold lineStream
    have h := lineGo_frames chunks [] hok (by simpa using hsz)
    simpa using h
  · intro hnc hsz
    unfold lineStream
    exact overflow [] [] (by simp) (by simpa using hsz)

/-- C8 witness: framing of a concrete two-line chunk (with a `\r\n`
terminator and an unterminated tail), and the guard tripping on a single
newline-free chunk of `MAX_SSE_BUFFER + 1024` bytes. -/
theorem c8_line_framing_witness :
    lineStream [Except.ok ("data: a\r\nrest".data)] =
      (sse_frame (chunkConcat [Except.ok ("data: a\r\nrest".data)])).map
        Except.ok ∧
    lineStream [Except.ok (List.replicate (MAX_SSE_BUFFER + 1024) 'x')] =
      [.error sseOverflowError] := by
  constructor
  · exact (c8_line_framing [Except.ok ("data: a\r\nrest".data)] []).1
      (by decide) (by decide)
  · exact (c8_line_framing [] (List.replicate (MAX_SSE_BUFFER + 1024) 'x')).2.2
      (by simp [List.mem_replicate])
      (by rw [utf8Len_replicate]; decide)
